import Mathlib

/-!
# go-genserver: mailbox and actor loop

A shallow embedding of `mailbox/mailbox.go`, `sync/pool.go`, `genserver/genserver.go`
and the state mutator of `store/memory/memory.go`.

Pointers to queue nodes are addresses (`Nat`) into an explicit heap, `nil` is `none`.
Every operation of the mailbox runs under the mailbox mutex, so each one is a single
atomic function on the mailbox state. The pool is the most general one the `Pool`
interface allows: `Get` hands out either a new zeroed node or any node that sits in the
free list, as chosen by an explicit argument.
-/

universe u

namespace mailbox

/-- Go's `comparable` message types, with the zero value `var emptyMessage MessageType`
and the test `message == emptyMessage`. -/
class Comparable (M : Type u) where
  zero : M
  isZero : M → Bool
  isZero_iff : ∀ m : M, isZero m = true ↔ m = zero

instance : Comparable Nat where
  zero := 0
  isZero := fun m => m == 0
  isZero_iff := by intro m; simp

/-- The queue node `Message[MessageType]`: payload and `next` pointer. -/
structure Message (M : Type u) where
  message : M
  next : Option Nat
deriving DecidableEq, Repr

/-- The struct `Mailbox[MessageType]` together with the memory its pointers refer to:
`heap` holds every node ever allocated, `messagePool` is the free list of the pool
(the nodes handed to `Put` and not yet handed out again by `Get`). The lock and the
condition variable are left out: every operation below is one critical section. -/
structure Mailbox (M : Type u) where
  heap : List (Message M)
  head : Option Nat
  tail : Option Nat
  messagePool : List Nat
  isOpen : Bool
deriving DecidableEq, Repr

variable {M : Type u} [Comparable M]

/-- The node a pointer refers to (`new(T)`, all fields zero, for an address never
allocated; such a pointer does not occur in a state built by the operations). -/
def load (heap : List (Message M)) (a : Nat) : Message M :=
  heap.getD a ⟨Comparable.zero, none⟩

/-- `NewMailbox(messagePool)`: empty queue, open, over the given pool (its free list
and the memory holding its nodes). -/
def NewMailbox (heap : List (Message M)) (messagePool : List Nat) : Mailbox M :=
  { heap := heap, head := none, tail := none, messagePool := messagePool, isOpen := true }

/-- `Pool.Get`: with `some i` the `i`-th node of the free list is taken out and returned
as it is; with `none` (or an index beyond the free list) the pool allocates with `New`,
a zeroed node at a new address. Returns the pointer, the memory and the free list. -/
def Get (heap : List (Message M)) (free : List Nat) (choice : Option Nat) :
    Nat × List (Message M) × List Nat :=
  match choice with
  | some i =>
    match free.get? i with
    | some a => (a, heap, free.eraseIdx i)
    | none => (heap.length, heap ++ [⟨Comparable.zero, none⟩], free)
  | none => (heap.length, heap ++ [⟨Comparable.zero, none⟩], free)

/-- `Pool.Put`: the pointer goes onto the free list; the node is not touched. -/
def Put (free : List Nat) (a : Nat) : List Nat :=
  a :: free

/-- `Mailbox.Send`. The result is `none` when the code dereferences a nil `tail`
(a state no sequence of operations produces), otherwise the returned flag and the new
state. `choice` is what the pool's `Get` does if it is called. -/
def Send (mb : Mailbox M) (message : M) (choice : Option Nat) : Option (Bool × Mailbox M) :=
  if Comparable.isZero message then some (false, mb)
  else if !mb.isOpen then some (false, mb)
  else
    let (newMailboxMessage, heap1, free1) := Get mb.heap mb.messagePool choice
    let heap2 := heap1.set newMailboxMessage { load heap1 newMailboxMessage with message := message }
    match mb.head with
    | none =>
      some (true, { mb with heap := heap2, messagePool := free1,
                            tail := some newMailboxMessage, head := some newMailboxMessage })
    | some _ =>
      match mb.tail with
      | none => none
      | some t =>
        let heap3 := heap2.set t { load heap2 t with next := some newMailboxMessage }
        some (true, { mb with heap := heap3, messagePool := free1,
                              tail := (load heap3 t).next })

/-- `Mailbox.Receive`, one pass of its loop. The result is `none` when the call reaches
`mb.signal.Wait()` (open and empty: the caller blocks), otherwise `(more, message)` and
the new state. -/
def Receive (mb : Mailbox M) : Option ((Bool × M) × Mailbox M) :=
  match mb.head with
  | some h =>
    let message := (load mb.heap h).message
    let next := (load mb.heap h).next
    some ((true, message), { mb with messagePool := Put mb.messagePool h, head := next })
  | none =>
    if !mb.isOpen then some ((false, Comparable.zero), mb)
    else none

/-- The drain loop of `Close` (lines 92-99), at most `fuel` passes; `none` when the loop
has not reached `mb.head == nil` by then. -/
def drain : Nat → Mailbox M → Option (Mailbox M)
  | 0, _ => none
  | fuel + 1, mb =>
    match mb.head with
    | none => some mb
    | some h =>
      let next := (load mb.heap h).next
      drain fuel { mb with messagePool := Put mb.messagePool h, head := next }

/-- `Mailbox.Close`: a no-op on a closed mailbox, otherwise clears `open` and drains. -/
def Close (fuel : Nat) (mb : Mailbox M) : Option (Mailbox M) :=
  if mb.isOpen then drain fuel { mb with isOpen := false }
  else some mb

/-- Whether the `next` links from `head` run through exactly the nodes `addrs` and end
in nil: the queue as the code sees it. -/
def isChain (heap : List (Message M)) : Option Nat → List Nat → Bool
  | none, [] => true
  | some a, b :: rest => a == b && isChain heap (load heap a).next rest
  | _, _ => false

/-- The nodes met on the first `fuel` steps along the `next` links from `head`. -/
def reach (heap : List (Message M)) : Nat → Option Nat → List Nat
  | 0, _ => []
  | _ + 1, none => []
  | fuel + 1, some a => a :: reach heap fuel (load heap a).next

/-- An operation on a mailbox. `Send` comes with what the pool does on `Get`, `Close`
with a bound on its drain loop. -/
inductive Op (M : Type u)
  | Send (message : M) (choice : Option Nat)
  | Receive
  | Close (fuel : Nat)

/-- A mailbox with its history: the messages for which `Send` returned true and the
messages `Receive` has returned with `more = true`, both in order. -/
structure Run (M : Type u) where
  mb : Mailbox M
  accepted : List M
  received : List M
deriving DecidableEq, Repr

/-- One operation; `none` when it does not return (a `Receive` that waits, a `Close`
that is still draining after `fuel` passes, the nil dereference in `Send`). -/
def exec (r : Run M) : Op M → Option (Run M)
  | .Send message choice =>
    (Send r.mb message choice).map fun res =>
      { r with mb := res.2, accepted := if res.1 then r.accepted ++ [message] else r.accepted }
  | .Receive =>
    (Receive r.mb).map fun res =>
      { r with mb := res.2, received := if res.1.1 then r.received ++ [res.1.2] else r.received }
  | .Close fuel =>
    (Close fuel r.mb).map fun mb => { r with mb := mb }

def execAll : Run M → List (Op M) → Option (Run M)
  | r, [] => some r
  | r, op :: ops => (exec r op).bind fun r1 => execAll r1 ops

/-- Every pointer of the mailbox, of the free list and of the nodes refers to an
allocated node, and a queue that is not empty has a `tail`. -/
def Valid (mb : Mailbox M) : Prop :=
  (∀ a, mb.head = some a → a < mb.heap.length) ∧
  (∀ a, mb.tail = some a → a < mb.heap.length) ∧
  (∀ a ∈ mb.messagePool, a < mb.heap.length) ∧
  (∀ node ∈ mb.heap, ∀ a, node.next = some a → a < mb.heap.length) ∧
  (mb.head ≠ none → mb.tail ≠ none)

/-- A mailbox just made by `NewMailbox` over the empty pool of `sync.NewPool`. -/
def fresh : Run M :=
  { mb := NewMailbox [] [], accepted := [], received := [] }

end mailbox

namespace genserver

open mailbox

/-- A Go value together with its dynamic type: what travels through a result channel
(`chan Return` for whatever `Return` the call was instantiated with). -/
structure Value : Type 1 where
  T : Type
  val : T

/-- The result channels, each made by `make(chan Return, 1)`: a one-slot buffer,
`none` when empty. A channel is its index in this list. -/
abbrev Chans := List (Option Value)

/-- `make(chan Return, 1)`. -/
def makeChan (chans : Chans) : Nat × Chans :=
  (chans.length, chans ++ [none])

/-- The send `ch <- v`: fills the empty slot; `none` when the slot is taken (the sender
blocks). -/
def chanSend (chans : Chans) (c : Nat) (v : Value) : Option Chans :=
  match chans.get? c with
  | some none => some (chans.set c (some v))
  | _ => none

/-- The receive `<-ch`: takes the buffered value; `none` when there is nothing to take. -/
def chanRecv (chans : Chans) (c : Nat) : Option (Value × Chans) :=
  match chans.get? c with
  | some (some v) => some (v, chans.set c none)
  | _ => none

/-- A value of type `func()`: `none` is the nil function; otherwise its effect on the
channels, `none` when it blocks. -/
abbrev Func := Option (Chans → Option Chans)

inductive ShutdownReason
  | Normal
  | BrutalKill
deriving DecidableEq, Repr

/-- `func(*State, Message) (Return, error)`: the state written through the pointer, the
result and the error (its message text, `none` for nil). -/
def CallHandler (State Message Ret : Type) := State → Message → State × Ret × Option String

/-- `func(*State, Message) error`. -/
def CastHandler (State Message : Type) := State → Message → State × Option String

/-- `func(State, ShutdownReason) error`: the finalizer gets the state by value, so all
it does happens outside the actor, in the world `W` of its captured variables. -/
def ShutdownHandler (State W : Type) := State → ShutdownReason → W → W × Option String

/-- `func(s *State) (func(), error)`. -/
def StateMutatorFn (State W : Type) := State → W → (Func × Option String) × State × W

/-- `func(StateMutatorFn[State]) (func(), error)`, a closure over the `Store` that
holds the state. -/
def StateMutator (Store State W : Type) :=
  StateMutatorFn State W → Store → W → (Func × Option String) × Store × W

structure CallMessageHandler (State Message Ret : Type) where
  m : Message
  returnChan : Option Nat
  h : CallHandler State Message Ret

structure MessageReturner (Ret : Type) where
  r : Ret
  returnChan : Option Nat

def MessageReturner.Return {Ret : Type} (mr : MessageReturner Ret) : Chans → Option Chans :=
  fun chans =>
    match mr.returnChan with
    | some c => chanSend chans c ⟨Ret, mr.r⟩
    | none => some chans

def CallMessageHandler.Handle {State Message Ret W : Type}
    (m : CallMessageHandler State Message Ret) : StateMutatorFn State W :=
  fun s w =>
    let (s1, r, err) := m.h s m.m
    ((some (MessageReturner.Return ⟨r, m.returnChan⟩), err), s1, w)

structure CastMessageHandler (State Message : Type) where
  m : Message
  h : CastHandler State Message

def CastMessageHandler.Handle {State Message W : Type}
    (m : CastMessageHandler State Message) : StateMutatorFn State W :=
  fun s w =>
    let (s1, err) := m.h s m.m
    ((some (fun chans => some chans), err), s1, w)

structure ShutdownMessageHandler (State W : Type) where
  r : ShutdownReason
  h : ShutdownHandler State W

def ShutdownMessageHandler.Handle {State W : Type}
    (m : ShutdownMessageHandler State W) : StateMutatorFn State W :=
  fun s w =>
    let (w1, err) := m.h s m.r w
    ((some (fun chans => some chans), err), s, w1)

/-- The dynamic value of a non-nil `MessageHandler[State]` interface: one of the three
handler structs, for any message and result type. -/
inductive Handler (State W : Type) : Type 1
  | call {Message Ret : Type} (m : CallMessageHandler State Message Ret)
  | cast {Message : Type} (m : CastMessageHandler State Message)
  | shutdown (m : ShutdownMessageHandler State W)

def Handler.Handle {State W : Type} : Handler State W → StateMutatorFn State W
  | .call m => m.Handle
  | .cast m => m.Handle
  | .shutdown m => m.Handle

/-- The interface type `MessageHandler[State]`; `none` is the nil interface. -/
abbrev MessageHandler (State W : Type) := Option (Handler State W)

instance {State W : Type} : Comparable (MessageHandler State W) where
  zero := none
  isZero := fun m => m.isNone
  isZero_iff := by intro m; cases m <;> simp

/-- The type assertion `messageHandler.(ShutdownMessageHandler[State])`, its `ok`. -/
def isShutdown {State W : Type} : MessageHandler State W → Bool
  | some (.shutdown _) => true
  | _ => false

/-- The configuration; the message pool is part of the mailbox memory and the logger's
output is `Sys.log`. -/
structure genServerConfig (ID W : Type) where
  deadlockTimeout : Nat
  deadlockCallback : Option (ID → String → W → W)

structure GenServer (ID State Store W : Type) where
  kind : String
  id : ID
  stateMutator : StateMutator Store State W
  messages : Mailbox (MessageHandler State W)
  terminated : Bool
  config : genServerConfig ID W

/-- Where the goroutine running `loop` stands. `Spinning`: inside a `Close` whose drain
loop has not ended; `Blocked`: inside a `returnValue()` that cannot send. -/
inductive Worker
  | NotStarted
  | Running
  | Terminated
  | Panicked
  | Blocked
  | Spinning
deriving DecidableEq, Repr

/-- The actor with everything its code acts on: the store behind the state mutator,
the world of the finalizers, the result channels and the logger output. -/
structure Sys (ID State Store W : Type) where
  server : GenServer ID State Store W
  worker : Worker
  store : Store
  world : W
  chans : Chans
  log : List String

/-- 30 seconds, in nanoseconds. -/
def defaultDeadlockTimeout : Nat := 30 * 1000000000

variable {ID State Store W : Type}

/-- `New`, with `WithMessagePool` as the only option there is: without it the mailbox
gets a pool of its own from `sync.NewPool`, with nothing in it. -/
def New (kind : String) (id : ID) (stateMutator : StateMutator Store State W)
    (messagesPool : Option (List (Message (MessageHandler State W)) × List Nat)) :
    GenServer ID State Store W :=
  { kind := kind, id := id, stateMutator := stateMutator,
    messages := match messagesPool with
      | some (heap, free) => NewMailbox heap free
      | none => NewMailbox [] [],
    terminated := false,
    config := { deadlockTimeout := defaultDeadlockTimeout, deadlockCallback := none } }

/-- `Start`: `go server.loop()`. -/
def Start (sys : Sys ID State Store W) : Sys ID State Store W :=
  { sys with worker := .Running }

/-- `Spawn` over a store, a world and no channels yet. -/
def Spawn (kind : String) (id : ID) (state : StateMutator Store State W)
    (messagesPool : Option (List (Message (MessageHandler State W)) × List Nat))
    (store : Store) (world : W) : Sys ID State Store W :=
  Start { server := New kind id state messagesPool, worker := .NotStarted,
          store := store, world := world, chans := [], log := [] }

/-- The deferred `close(server.terminated)` together with where the worker ends. -/
def finish (sys : Sys ID State Store W) (worker : Worker) : Sys ID State Store W :=
  { sys with worker := worker, server := { sys.server with terminated := true } }

def setMessages (sys : Sys ID State Store W) (mb : Mailbox (MessageHandler State W)) :
    Sys ID State Store W :=
  { sys with server := { sys.server with messages := mb } }

/-- Line 183 of `loop`, `returnValue()`: calling the nil function panics (the deferred
`close(server.terminated)` still runs), a function that cannot send blocks. -/
def deliver (returnValue : Func) (sys : Sys ID State Store W) : Sys ID State Store W :=
  match returnValue with
  | none => finish sys .Panicked
  | some f =>
    match f sys.chans with
    | none => { sys with worker := .Blocked }
    | some chans => { sys with chans := chans }

/-- Lines 178-183 of `loop`: the state mutator runs the handler; an error is logged and
closes the mailbox; then the returned function is called. `d` bounds the drain loop of
`Close`. -/
def handle (d : Nat) (hd : Handler State W) (sys : Sys ID State Store W) :
    Sys ID State Store W :=
  let ((returnValue, err), store2, world2) :=
    sys.server.stateMutator hd.Handle sys.store sys.world
  let sys2 := { sys with store := store2, world := world2 }
  match err with
  | none => deliver returnValue sys2
  | some e =>
    let sys3 := { sys2 with log := sys2.log ++ ["Processing message: " ++ e] }
    match Close d sys3.server.messages with
    | none => { sys3 with worker := .Spinning }
    | some mb3 => deliver returnValue (setMessages sys3 mb3)

/-- Lines 174-183 of `loop`, for a message `Receive` has returned: a Shutdown closes the
mailbox first, then the message is handled. Taking the method value
`messageHandler.Handle` of a nil interface panics. -/
def process (d : Nat) (messageHandler : MessageHandler State W)
    (sys : Sys ID State Store W) : Sys ID State Store W :=
  match (if isShutdown messageHandler then Close d sys.server.messages
         else some sys.server.messages) with
  | none => { sys with worker := .Spinning }
  | some mb1 =>
    match messageHandler with
    | none => finish (setMessages sys mb1) .Panicked
    | some hd => handle d hd (setMessages sys mb1)

/-- One pass of the `for` of `loop`. A worker that is not running does nothing, and a
`Receive` that waits leaves everything as it is. -/
def loopIter (d : Nat) (sys : Sys ID State Store W) : Sys ID State Store W :=
  if sys.worker ≠ .Running then sys
  else
    match Receive sys.server.messages with
    | none => sys
    | some ((more, messageHandler), mb) =>
      if !more then finish (setMessages sys mb) .Terminated
      else process d messageHandler (setMessages sys mb)

/-- The body of `loop`, `n` passes of it. -/
def loop (d : Nat) : Nat → Sys ID State Store W → Sys ID State Store W
  | 0, sys => sys
  | n + 1, sys => loop d n (loopIter d sys)


/-- The struct `CallTimeoutError[ID]`. -/
structure CallTimeoutError (ID : Type) where
  kind : String
  id : ID
  trace : String
deriving DecidableEq, Repr

/-- The `error` values the package returns: those of `fmt.Errorf` and `errors.New`, by
their text, and `CallTimeoutError`. -/
inductive GoError (ID : Type)
  | errorString (s : String)
  | callTimeout (e : CallTimeoutError ID)
deriving DecidableEq, Repr

/-- `CallTimeoutError.Error`; `clientStack` is what `runtime.Stack(buf, false)` writes
for the goroutine that renders the error. -/
def CallTimeoutError.Error [ToString ID] (cte : CallTimeoutError ID) (clientStack : String) :
    String :=
  if cte.trace.length > 0 then
    "GenServer WARNING timeout in " ++ cte.kind ++ ", id " ++ toString cte.id
      ++ "\nGenServer stuck in\n" ++ cte.trace ++ "\n"
  else
    let trace := clientStack
    "GenServer WARNING timeout in " ++ cte.kind ++ ", id " ++ toString cte.id
      ++ "\nGenServer couldn't find Server stacktrace\nClient Stacktrace:\n" ++ trace ++ "\n"

/-- What an operation that can panic or wait for ever comes to. -/
inductive Outcome (α : Type 1)
  | ret (a : α)
  | panic
  | blocks

/-- The loop of `handleTimeout` (lines 243-246), entered with a buffer of `bufLen` bytes
that counts as full: the buffer is doubled, `runtime.Stack(buf, true)` writes as much of
the dump `dump` as fits, and the loop goes on while the buffer came back full. The
result is `string(buf[:length])`. A character stands for a byte. -/
def readStack (dump : List Char) (bufLen : Nat) (hpos : 0 < bufLen) : List Char :=
  let newLen := bufLen * 2
  let length := min dump.length newLen
  if h : length = newLen then readStack dump newLen (by omega)
  else dump.take length
termination_by dump.length + 1 - bufLen
decreasing_by
  simp only [newLen, length] at h
  omega

/-- `strings.Split(s, "\n\n")`: the blocks between the leftmost non-overlapping blank
lines; `acc` is the block being read. -/
def splitBlocks : List Char → List Char → List (List Char)
  | [], acc => [acc]
  | [c], acc => [acc ++ [c]]
  | c :: d :: rest, acc =>
    if c = '\n' ∧ d = '\n' then acc :: splitBlocks rest []
    else splitBlocks (d :: rest) (acc ++ [c])

/-- The `for _, t := range traces` of `handleTimeout`: the first block with the prefix,
the zero string when the range ends without one. -/
def findTrace (pre : List Char) : List (List Char) → List Char
  | [] => []
  | t :: traces => if pre.isPrefixOf t then t else findTrace pre traces

/-- `handleTimeout`; `dump` is the stack dump of all goroutines at that moment. -/
def handleTimeout [ToString ID] (sys : Sys ID State Store W) (dump : String) :
    GoError ID × Sys ID State Store W :=
  let text := readStack dump.data 100000 (by decide)
  let traces := splitBlocks text []
  let pre := "server id " ++ toString sys.server.id ++ " "
  let trace : String := ⟨findTrace pre.data traces⟩
  let sys1 :=
    match sys.server.config.deadlockCallback with
    | some cb => { sys with world := cb sys.server.id trace sys.world }
    | none => sys
  (.callTimeout { kind := sys.server.kind, id := sys.server.id, trace := trace }, sys1)

/-- `Shutdown`. `env` is what the rest of the program does while the caller waits in the
`select`; `waitUntil` tells whether the caller's channel becomes ready (a nil channel
never does). The terminated signal is taken when it is there. -/
def Shutdown (sys : Sys ID State Store W) (reason : ShutdownReason)
    (handler : ShutdownHandler State W) (waitUntil : Bool) (choice : Option Nat)
    (env : Sys ID State Store W → Sys ID State Store W) :
    Outcome (Option (GoError ID) × Sys ID State Store W) :=
  match Send sys.server.messages (some (.shutdown ⟨reason, handler⟩)) choice with
  | none => .panic
  | some (false, _) => .ret (some (.errorString "send to dead genserver"), sys)
  | some (true, mb) =>
    let sys1 := env (setMessages sys mb)
    if sys1.server.terminated then .ret (none, sys1)
    else if waitUntil then .ret (some (.errorString "did not finish shutting down"), sys1)
    else .blocks

/-- `Cast`. -/
def Cast {Message : Type} (sys : Sys ID State Store W) (message : Message)
    (handler : CastHandler State Message) (choice : Option Nat) :
    Outcome (Option (GoError ID) × Sys ID State Store W) :=
  match Send sys.server.messages (some (.cast ⟨message, handler⟩)) choice with
  | none => .panic
  | some (false, _) => .ret (some (.errorString "send to dead genserver"), sys)
  | some (true, mb) => .ret (none, setMessages sys mb)

/-- `Call`. `env` is what the rest of the program (the worker) does while the caller
waits in the `select`; a result that lies in the channel by then is taken, otherwise the
timer fires, with `dump` the stack dump at that moment. -/
def Call {Message Ret : Type} [Inhabited Ret] [ToString ID] (sys : Sys ID State Store W)
    (message : Message) (handler : CallHandler State Message Ret) (choice : Option Nat)
    (env : Sys ID State Store W → Sys ID State Store W) (dump : String) :
    Outcome ((Value × Option (GoError ID)) × Sys ID State Store W) :=
  let (returnValChan, chans1) := makeChan sys.chans
  let sys0 := { sys with chans := chans1 }
  let empty : Ret := default
  match Send sys0.server.messages (some (.call ⟨message, some returnValChan, handler⟩)) choice with
  | none => .panic
  | some (false, _) => .ret ((⟨Ret, empty⟩, some (.errorString "call to dead genserver")), sys0)
  | some (true, mb) =>
    let sys1 := env (setMessages sys0 mb)
    match chanRecv sys1.chans returnValChan with
    | some (returnVal, chans2) => .ret ((returnVal, none), { sys1 with chans := chans2 })
    | none =>
      let (err, sys2) := handleTimeout sys1 dump
      .ret ((⟨Ret, empty⟩, some err), sys2)

/-- `GenServer.Get`. -/
def Get [Inhabited State] [ToString ID] (sys : Sys ID State Store W) (choice : Option Nat)
    (env : Sys ID State Store W → Sys ID State Store W) (dump : String) :
    Outcome ((Value × Option (GoError ID)) × Sys ID State Store W) :=
  Call sys () (fun s (_ : Unit) => (s, s, none)) choice env dump

/-- `simpleAccessor.ModifyState` of the test: the store is the state itself. -/
def simpleAccessor.ModifyState : StateMutator State State W :=
  fun modifier c w =>
    let ((f, err), c1, w1) := modifier c w
    ((f, err), c1, w1)

/-- `sync.Map.Load` on the map as a list of entries. -/
def Map.Load [DecidableEq ID] (store : List (ID × State)) (key : ID) : Option State :=
  (store.find? fun e => e.1 = key).map fun e => e.2

/-- `storedState.ModifyState` of the memory store, for the state kept under `id`. -/
def storedState.ModifyState [DecidableEq ID] [ToString ID] (id : ID) :
    StateMutator (List (ID × State)) State W :=
  fun modifier store w =>
    match Map.Load store id with
    | none => ((none, some ("Could not load state for ID " ++ toString id)), store, w)
    | some val =>
      let (res, val1, w1) := modifier val w
      (res, store.map (fun e => if e.1 = id then (e.1, val1) else e), w1)

/-- A sequence of `Call`s issued one after another, each with what the pool does for its
`Send`; the results in order and the actor afterwards. -/
def callAll {Message Ret : Type} [Inhabited Ret] [ToString ID]
    (env : Sys ID State Store W → Sys ID State Store W) (dump : String) :
    Sys ID State Store W → List (Message × CallHandler State Message Ret × Option Nat) →
    Outcome (List (Value × Option (GoError ID)) × Sys ID State Store W)
  | sys, [] => .ret ([], sys)
  | sys, (message, handler, choice) :: rest =>
    match Call sys message handler choice env dump with
    | .ret (res, sys1) =>
      match callAll env dump sys1 rest with
      | .ret (results, sys2) => .ret (res :: results, sys2)
      | .panic => .panic
      | .blocks => .blocks
    | .panic => .panic
    | .blocks => .blocks

/-- What the handlers compute when applied in order from the state `s`: the value of
each on the state left by those before it. -/
def callResults {Message Ret : Type} (s : State) :
    List (Message × CallHandler State Message Ret × Option Nat) → List Ret
  | [] => []
  | (message, handler, _) :: rest =>
    (handler s message).2.1 :: callResults (handler s message).1 rest

/-- The state after the handlers were applied in order from the state `s`. -/
def callState {Message Ret : Type} (s : State) :
    List (Message × CallHandler State Message Ret × Option Nat) → State
  | [] => s
  | (message, handler, _) :: rest => callState (handler s message).1 rest

/-- None of the handlers returns an error when they are applied in order from `s`. -/
def callsOK {Message Ret : Type} (s : State) :
    List (Message × CallHandler State Message Ret × Option Nat) → Prop
  | [] => True
  | (message, handler, _) :: rest =>
    (handler s message).2.2 = none ∧ callsOK (handler s message).1 rest

/-- The actor between two calls under the state mutator of the test: the worker waits
on an empty open mailbox, the state is `s`, and every node the mailbox or its pool has
seen has a nil `next`. -/
def Idle (sys : Sys ID State State W) (s : State) : Prop :=
  sys.worker = .Running ∧ sys.server.stateMutator = simpleAccessor.ModifyState ∧
  sys.store = s ∧ sys.server.messages.head = none ∧ sys.server.messages.isOpen = true ∧
  (∀ a ∈ sys.server.messages.messagePool, a < sys.server.messages.heap.length) ∧
  (∀ node ∈ sys.server.messages.heap, node.next = none)

/-- The counter of the test, `add` and `subtract` on a `uint64`. -/
def add : CallHandler Nat Nat Nat :=
  fun c amt => ((c + amt) % 2 ^ 64, (c + amt) % 2 ^ 64, none)

def subtract : CallHandler Nat Nat Nat :=
  fun c amt => ((c + 2 ^ 64 - amt % 2 ^ 64) % 2 ^ 64, (c + 2 ^ 64 - amt % 2 ^ 64) % 2 ^ 64, none)

/-- What applying a handler does to the state: the function of a call or a cast writes
through the pointer, a finalizer gets a copy. -/
def Handler.applied : Handler State W → State → State
  | .call m, s => (m.h s m.m).1
  | .cast m, s => (m.h s m.m).1
  | .shutdown _, s => s

/-- The error a handler's function returns on the state `s` (a finalizer, in the world
`w`). -/
def Handler.failure (w : W) : Handler State W → State → Option String
  | .call m, s => (m.h s m.m).2.2
  | .cast m, s => (m.h s m.m).2
  | .shutdown m, s => (m.h s m.r w).2

/-- The state after the handlers were applied in order from `s`. -/
def applyAll : List (Handler State W) → State → State
  | [], s => s
  | hd :: rest, s => applyAll rest (hd.applied s)

/-- None of the handlers returns an error when they are applied in order from `s`. -/
def noErrors (w : W) : List (Handler State W) → State → Prop
  | [], _ => True
  | hd :: rest, s => hd.failure w s = none ∧ noErrors w rest (hd.applied s)

/-- The result channel a handler delivers to, if any. -/
def resultChan : Handler State W → Option Nat
  | .call m => m.returnChan
  | _ => none

/-- The channels after the handler, applied to `s`, has delivered its result into an
empty slot. -/
def deliverOne (hd : Handler State W) (s : State) (chans : Chans) : Chans :=
  match hd with
  | .call m =>
    match m.returnChan with
    | some c => chans.set c (some ⟨_, (m.h s m.m).2.1⟩)
    | none => chans
  | _ => chans

/-- The channels after the handlers, applied in order from `s`, have delivered their
results. -/
def delivered : List (Handler State W) → State → Chans → Chans
  | [], _, chans => chans
  | hd :: rest, s, chans => delivered rest (hd.applied s) (deliverOne hd s chans)

/-- Every result channel of the handlers is a channel of its own with an empty slot, as
the channels made by `Call` are. -/
def chansReady (ms : List (Handler State W)) (chans : Chans) : Prop :=
  (ms.filterMap resultChan).Nodup ∧ ∀ c ∈ ms.filterMap resultChan, chans.get? c = some none

/-- The finalizer of the test, `finalValue = c.current`: the world is that variable. -/
def finalValue : ShutdownHandler Nat Nat :=
  fun c _ _ => (c, none)

/-- A cast that adds its message to the counter. -/
def increment : CastHandler Nat Nat :=
  fun c amt => ((c + amt) % 2 ^ 64, none)

/-- The counter actor of the test with add, add, subtract, subtract, add of 1 and then
the Shutdown queued, each call with a result channel of its own. -/
def shutdownTest : Sys String Nat Nat Nat :=
  { server :=
      { kind := "counter", id := "1", stateMutator := simpleAccessor.ModifyState,
        messages :=
          { heap := [⟨some (.call ⟨1, some 0, add⟩), some 1⟩,
                     ⟨some (.call ⟨1, some 1, add⟩), some 2⟩,
                     ⟨some (.call ⟨1, some 2, subtract⟩), some 3⟩,
                     ⟨some (.call ⟨1, some 3, subtract⟩), some 4⟩,
                     ⟨some (.call ⟨1, some 4, add⟩), some 5⟩,
                     ⟨some (.shutdown ⟨.Normal, finalValue⟩), none⟩],
            head := some 0, tail := some 5, messagePool := [], isOpen := true },
        terminated := false,
        config := { deadlockTimeout := defaultDeadlockTimeout, deadlockCallback := none } },
    worker := .Running, store := 0, world := 0,
    chans := [none, none, none, none, none], log := [] }

/-- A counter actor at 5 with a cast, the Shutdown and another cast queued. -/
def finalityTest : Sys String Nat Nat Nat :=
  { server :=
      { kind := "counter", id := "1", stateMutator := simpleAccessor.ModifyState,
        messages :=
          { heap := [⟨some (.cast ⟨1, increment⟩), some 1⟩,
                     ⟨some (.shutdown ⟨.Normal, finalValue⟩), some 2⟩,
                     ⟨some (.cast ⟨10, increment⟩), none⟩],
            head := some 0, tail := some 2, messagePool := [], isOpen := true },
        terminated := false,
        config := { deadlockTimeout := defaultDeadlockTimeout, deadlockCallback := none } },
    worker := .Running, store := 5, world := 0, chans := [], log := [] }

/-- A counter actor at 5 whose mailbox holds just a Shutdown. -/
def shutdownOnly : Sys String Nat Nat Nat :=
  { server :=
      { kind := "counter", id := "1", stateMutator := simpleAccessor.ModifyState,
        messages :=
          { heap := [⟨some (.shutdown ⟨.Normal, finalValue⟩), none⟩],
            head := some 0, tail := some 0, messagePool := [], isOpen := true },
        terminated := false,
        config := { deadlockTimeout := defaultDeadlockTimeout, deadlockCallback := none } },
    worker := .Running, store := 5, world := 0, chans := [], log := [] }

/-- A counter actor at 5 whose mailbox has been closed. -/
def deadTest : Sys String Nat Nat Nat :=
  { server :=
      { kind := "counter", id := "1", stateMutator := simpleAccessor.ModifyState,
        messages := { heap := [], head := none, tail := none, messagePool := [], isOpen := false },
        terminated := true,
        config := { deadlockTimeout := defaultDeadlockTimeout, deadlockCallback := none } },
    worker := .Terminated, store := 5, world := 0, chans := [], log := [] }

/-- An actor over the memory store, for the id "1" under which the store holds nothing,
with one cast queued. -/
def missingIdTest : Sys String Nat (List (String × Nat)) Nat :=
  { server :=
      { kind := "counter", id := "1", stateMutator := storedState.ModifyState "1",
        messages :=
          { heap := [⟨some (.cast ⟨1, increment⟩), none⟩],
            head := some 0, tail := some 0, messagePool := [], isOpen := true },
        terminated := false,
        config := { deadlockTimeout := defaultDeadlockTimeout, deadlockCallback := none } },
    worker := .Running, store := [], world := 0, chans := [], log := [] }

/-- A call handler that adds to the counter and then reports an error. -/
def addThenFail : CallHandler Nat Nat Nat :=
  fun c amt => ((c + amt) % 2 ^ 64, (c + amt) % 2 ^ 64, some "add failed")

/-- A cast handler that adds to the counter and then reports an error. -/
def incrementThenFail : CastHandler Nat Nat :=
  fun c amt => ((c + amt) % 2 ^ 64, some "increment failed")

/-- A counter actor at 5 with a cast, a failing cast and another cast queued. -/
def failFastTest : Sys String Nat Nat Nat :=
  { server :=
      { kind := "counter", id := "1", stateMutator := simpleAccessor.ModifyState,
        messages :=
          { heap := [⟨some (.cast ⟨1, increment⟩), some 1⟩,
                     ⟨some (.cast ⟨2, incrementThenFail⟩), some 2⟩,
                     ⟨some (.cast ⟨10, increment⟩), none⟩],
            head := some 0, tail := some 2, messagePool := [], isOpen := true },
        terminated := false,
        config := { deadlockTimeout := defaultDeadlockTimeout, deadlockCallback := none } },
    worker := .Running, store := 5, world := 0, chans := [], log := [] }

/-- A sequence of `Cast`s issued one after another, each with what the pool does for its
`Send`; the errors returned, in order, and the actor afterwards. -/
def castAll {Message : Type} :
    Sys ID State Store W → List (Message × CastHandler State Message × Option Nat) →
    Outcome (List (Option (GoError ID)) × Sys ID State Store W)
  | sys, [] => .ret ([], sys)
  | sys, (message, handler, choice) :: rest =>
    match Cast sys message handler choice with
    | .ret (err, sys1) =>
      match castAll sys1 rest with
      | .ret (errs, sys2) => .ret (err :: errs, sys2)
      | .panic => .panic
      | .blocks => .blocks
    | .panic => .panic
    | .blocks => .blocks

/-- Other callers cast while a caller waits, and then the worker gets `n` passes. -/
def castsThenLoop {Message : Type} (d n : Nat)
    (casts : List (Message × CastHandler State Message × Option Nat))
    (sys : Sys ID State Store W) : Sys ID State Store W :=
  match castAll sys casts with
  | .ret (_, sys1) => loop d n sys1
  | _ => sys

/-- The counter actor at 111 after casts of 1, 10 and 100 were sent and handled: the
worker waits on the empty mailbox, and the three nodes lie in the pool with the `next`
links they had in the queue. The finalizer's variable holds 7. -/
def threeHandled : Sys String Nat Nat Nat :=
  { server :=
      { kind := "counter", id := "1", stateMutator := simpleAccessor.ModifyState,
        messages :=
          { heap := [⟨some (.cast ⟨1, increment⟩), some 1⟩,
                     ⟨some (.cast ⟨10, increment⟩), some 2⟩,
                     ⟨some (.cast ⟨100, increment⟩), none⟩],
            head := none, tail := some 2, messagePool := [2, 1, 0], isOpen := true },
        terminated := false,
        config := { deadlockTimeout := defaultDeadlockTimeout, deadlockCallback := none } },
    worker := .Running, store := 111, world := 7, chans := [], log := [] }

/-- The counter actor at 111 after three casts were handled and a cast of 1000, a cast
of 10000 and a Shutdown were sent on the recycled nodes 0, 2 and 1: node 1 still points
at node 2. The finalizer's variable holds 7. -/
def recycledShutdown : Sys String Nat Nat Nat :=
  { server :=
      { kind := "counter", id := "1", stateMutator := simpleAccessor.ModifyState,
        messages :=
          { heap := [⟨some (.cast ⟨1000, increment⟩), some 2⟩,
                     ⟨some (.shutdown ⟨.Normal, finalValue⟩), some 2⟩,
                     ⟨some (.cast ⟨10000, increment⟩), some 1⟩],
            head := some 0, tail := some 1, messagePool := [], isOpen := true },
        terminated := false,
        config := { deadlockTimeout := defaultDeadlockTimeout, deadlockCallback := none } },
    worker := .Running, store := 111, world := 7, chans := [], log := [] }

/-- The counter actor at 111 after three casts were handled and a cast of 1000, a
failing cast of 2 and a cast of 10000 were sent on the recycled nodes 0, 2 and 1: node 1
still points at node 2. -/
def recycledFailure : Sys String Nat Nat Nat :=
  { server :=
      { kind := "counter", id := "1", stateMutator := simpleAccessor.ModifyState,
        messages :=
          { heap := [⟨some (.cast ⟨1000, increment⟩), some 2⟩,
                     ⟨some (.cast ⟨10000, increment⟩), some 2⟩,
                     ⟨some (.cast ⟨2, incrementThenFail⟩), some 1⟩],
            head := some 0, tail := some 1, messagePool := [], isOpen := true },
        terminated := false,
        config := { deadlockTimeout := defaultDeadlockTimeout, deadlockCallback := none } },
    worker := .Running, store := 111, world := 7, chans := [], log := [] }

/-- The counter actor at 111 after three casts were handled, a failing call of 1 was sent
on the recycled node 0 and, while its caller waits, casts of 10 and 100 on the recycled
nodes 2 and 1: node 1 still points at node 2. -/
def recycledCall : Sys String Nat Nat Nat :=
  { server :=
      { kind := "counter", id := "1", stateMutator := simpleAccessor.ModifyState,
        messages :=
          { heap := [⟨some (.call ⟨1, some 0, addThenFail⟩), some 2⟩,
                     ⟨some (.cast ⟨100, increment⟩), some 2⟩,
                     ⟨some (.cast ⟨10, increment⟩), some 1⟩],
            head := some 0, tail := some 1, messagePool := [], isOpen := true },
        terminated := false,
        config := { deadlockTimeout := defaultDeadlockTimeout, deadlockCallback := none } },
    worker := .Running, store := 111, world := 7, chans := [none], log := [] }

end genserver

/-! # Properties -/

/-! ## The mailbox -/

namespace mailbox

theorem fresh_valid {M : Type u} : Valid (fresh : Run M).mb := by
  refine ⟨?_, ?_, ?_, ?_, ?_⟩ <;> simp [fresh, NewMailbox]

variable {M : Type u} [Comparable M]

theorem drain_isOpen (fuel : Nat) (mb mb1 : Mailbox M) (h : drain fuel mb = some mb1) :
    mb1.isOpen = mb.isOpen ∧ mb1.head = none := by
  induction fuel generalizing mb with
  | zero => simp [drain] at h
  | succ n ih =>
    unfold drain at h
    split at h
    · rename_i hh
      cases h
      exact ⟨rfl, hh⟩
    · have := ih _ h
      simpa using this

theorem Close_closed (fuel : Nat) (mb mb1 : Mailbox M) (h : Close fuel mb = some mb1) :
    mb1.isOpen = false := by
  unfold Close at h
  split at h
  · exact (drain_isOpen _ _ _ h).1
  · cases h
    simpa using ‹¬ mb.isOpen = true›

theorem Send_of_closed (mb : Mailbox M) (message : M) (choice : Option Nat)
    (h : mb.isOpen = false) : Send mb message choice = some (false, mb) := by
  unfold Send
  simp [h]

/-- C5. `Send` returns true exactly when the message is not the zero value and the
mailbox is open; a `Send` that returns false leaves the whole state (queue, open flag,
memory and free list of the pool) as it was; the zero value is always refused, and so is
every message after `Close`. The hypothesis excludes the states with a queue but no
`tail`, which the code never builds. -/
theorem Send_true_iff_nonzero_and_open (mb : Mailbox M) (message : M) (choice : Option Nat)
    (htail : mb.head ≠ none → mb.tail ≠ none) :
    ((∃ mb1, Send mb message choice = some (true, mb1)) ↔
        (message ≠ Comparable.zero ∧ mb.isOpen = true)) ∧
    ((∃ mb1, Send mb message choice = some (false, mb1)) ↔
        ¬ (message ≠ Comparable.zero ∧ mb.isOpen = true)) ∧
    (∀ mb1, Send mb message choice = some (false, mb1) → mb1 = mb) ∧
    Send mb Comparable.zero choice = some (false, mb) ∧
    (∀ fuel mbc, Close fuel mb = some mbc → Send mbc message choice = some (false, mbc)) := by
  have hz : ∀ m : M, Comparable.isZero m = true ↔ m = Comparable.zero := Comparable.isZero_iff
  have key : (message ≠ Comparable.zero ∧ mb.isOpen = true) →
      ∃ mb1, Send mb message choice = some (true, mb1) := by
    rintro ⟨h1, h2⟩
    have h1' : Comparable.isZero message = false := by
      cases hc : Comparable.isZero message
      · rfl
      · exact absurd ((hz _).1 hc) h1
    unfold Send
    simp only [h1', h2]
    cases hh : mb.head with
    | none => simp
    | some a =>
      cases ht : mb.tail with
      | none => exact absurd ht (htail (by simp [hh]))
      | some t => simp
  have key2 : ¬ (message ≠ Comparable.zero ∧ mb.isOpen = true) →
      Send mb message choice = some (false, mb) := by
    intro h
    unfold Send
    by_cases h1 : Comparable.isZero message = true
    · simp [h1]
    · have h1' : message ≠ Comparable.zero := fun e => h1 ((hz _).2 e)
      have h2 : mb.isOpen = false := by
        cases ho : mb.isOpen
        · rfl
        · exact absurd ⟨h1', ho⟩ h
      simp [h1, h2]
  refine ⟨⟨?_, key⟩, ⟨?_, fun h => ⟨mb, key2 h⟩⟩, ?_, ?_, ?_⟩
  · rintro ⟨mb1, h⟩
    by_contra hn
    rw [key2 hn] at h
    simp at h
  · rintro ⟨mb1, h⟩ hn
    obtain ⟨mb2, h2⟩ := key hn
    rw [h2] at h
    simp at h
  · intro mb1 h
    by_cases hn : message ≠ Comparable.zero ∧ mb.isOpen = true
    · obtain ⟨mb2, h2⟩ := key hn
      rw [h2] at h
      simp at h
    · rw [key2 hn] at h
      simp at h
      exact h.symm
  · unfold Send
    simp [(hz _).2 rfl]
  · intro fuel mbc h
    exact Send_of_closed _ _ _ (Close_closed _ _ _ h)

theorem Send_true_iff_nonzero_and_open_witness :
    ((∃ mb1, Send (⟨[⟨10, none⟩], some 0, some 0, [], true⟩ : Mailbox Nat) 5 none
        = some (true, mb1)) ↔
      ((5 : Nat) ≠ Comparable.zero ∧
        (⟨[⟨10, none⟩], some 0, some 0, [], true⟩ : Mailbox Nat).isOpen = true)) :=
  (Send_true_iff_nonzero_and_open ⟨[⟨10, none⟩], some 0, some 0, [], true⟩ 5 none
    (by decide)).1

/-- C1, at the failing input. Two messages are sent and received, which leaves node 0
in the free list with its `next` still pointing at node 1; the third `Send` gets node 0
back from the pool and does not clear that link, so after the third message the queue
hands out the second one again: 10, 20, 30 were accepted and 10, 20, 30, 20 are
received, which is no prefix of what was accepted. -/
theorem Receive_returns_message_twice :
    ((execAll (fresh : Run Nat)
        [.Send 10 none, .Send 20 none, .Receive, .Receive, .Send 30 (some 1),
         .Receive, .Receive]).map fun r => (r.accepted, r.received))
      = some ([10, 20, 30], [10, 20, 30, 20]) ∧
    ¬ ([10, 20, 30, 20] <+: [10, 20, 30]) := by
  decide

theorem drain_cycle (t : Option Nat) (fuel : Nat) : ∀ free : List Nat,
    drain fuel (⟨[⟨40, some 1⟩, ⟨30, some 0⟩], some 1, t, free, false⟩ : Mailbox Nat) = none ∧
    drain fuel (⟨[⟨40, some 1⟩, ⟨30, some 0⟩], some 0, t, free, false⟩ : Mailbox Nat) = none := by
  induction fuel with
  | zero => intro free; exact ⟨rfl, rfl⟩
  | succ n ih =>
    intro free
    constructor
    · have := (ih (Put free 1)).2
      simpa [drain, load] using this
    · have := (ih (Put free 0)).1
      simpa [drain, load] using this

/-- C6, at the failing input. After two messages were sent and received, the pool hands
the two nodes back last-in first-out; the second of the next two `Send`s links the
recycled node 0, whose stale `next` still points at node 1, behind node 1: the queue is
a cycle, and the drain loop of `Close` never reaches a nil `head`, whatever the number
of passes. -/
theorem Close_drain_never_ends :
    execAll (fresh : Run Nat)
        [.Send 10 none, .Send 20 none, .Receive, .Receive, .Send 30 (some 0), .Send 40 (some 0)]
      = some ⟨⟨[⟨40, some 1⟩, ⟨30, some 0⟩], some 1, some 0, [], true⟩, [10, 20, 30, 40], [10, 20]⟩ ∧
    ∀ fuel, Close fuel (⟨[⟨40, some 1⟩, ⟨30, some 0⟩], some 1, some 0, [], true⟩ : Mailbox Nat)
      = none := by
  refine ⟨by decide, fun fuel => ?_⟩
  simp only [Close, if_true]
  exact (drain_cycle _ fuel _).1

/-- C10, at the failing input. After two messages were sent and received and a third
sent into the recycled node 0, node 1 is in the free list of the pool and at the same
time linked into the queue behind the head; the next two `Receive`s then hand node 1 to
`Put` a second time although `Get` never gave it out again. -/
theorem node_in_pool_and_in_queue :
    ((execAll (fresh : Run Nat)
        [.Send 10 none, .Send 20 none, .Receive, .Receive, .Send 30 (some 1)]).map
        fun r => (r.mb.head, reach r.mb.heap 2 r.mb.head, r.mb.messagePool))
      = some (some 0, [0, 1], [1]) ∧
    ((execAll (fresh : Run Nat)
        [.Send 10 none, .Send 20 none, .Receive, .Receive, .Send 30 (some 1),
         .Receive, .Receive]).map fun r => r.mb.messagePool)
      = some [1, 0, 1] := by
  decide

theorem load_of_mem_next (heap : List (Message M)) (hnext : ∀ node ∈ heap, node.next = none)
    (a : Nat) : (load heap a).next = none := by
  unfold load
  by_cases h : a < heap.length
  · rw [List.getD_eq_getElem _ _ h]
    exact hnext _ (List.getElem_mem _)
  · rw [List.getD_eq_default _ _ (by omega)]

theorem Get_spec (heap : List (Message M)) (free : List Nat) (choice : Option Nat)
    (hfree : ∀ a ∈ free, a < heap.length) (hnext : ∀ node ∈ heap, node.next = none) :
    (Get heap free choice).1 < (Get heap free choice).2.1.length ∧
    (∀ node ∈ (Get heap free choice).2.1, node.next = none) ∧
    (∀ b ∈ (Get heap free choice).2.2, b < (Get heap free choice).2.1.length) := by
  have hfresh : heap.length < (heap ++ [(⟨Comparable.zero, none⟩ : Message M)]).length ∧
      (∀ node ∈ heap ++ [(⟨Comparable.zero, none⟩ : Message M)], node.next = none) ∧
      (∀ b ∈ free, b < (heap ++ [(⟨Comparable.zero, none⟩ : Message M)]).length) := by
    refine ⟨by simp, ?_, ?_⟩
    · intro node hn
      rcases List.mem_append.1 hn with h | h
      · exact hnext _ h
      · simp at h; simp [h]
    · intro b hb
      have := hfree b hb
      simp; omega
  cases choice with
  | none => simp only [Get]; exact hfresh
  | some i =>
    cases hg : free.get? i with
    | none => simp only [Get, hg]; exact hfresh
    | some a =>
      simp only [Get, hg]
      exact ⟨hfree a (List.get?_mem hg), hnext, fun b hb => hfree b (List.mem_of_mem_eraseIdx hb)⟩

theorem Send_empty (mb : Mailbox M) (message : M) (choice : Option Nat)
    (hz : Comparable.isZero message = false) (hopen : mb.isOpen = true)
    (hhead : mb.head = none) (hfree : ∀ a ∈ mb.messagePool, a < mb.heap.length)
    (hnext : ∀ node ∈ mb.heap, node.next = none) :
    ∃ mb1 a, Send mb message choice = some (true, mb1) ∧ mb1.head = some a ∧
      mb1.isOpen = true ∧ load mb1.heap a = ⟨message, none⟩ ∧
      (∀ node ∈ mb1.heap, node.next = none) ∧
      (∀ b ∈ a :: mb1.messagePool, b < mb1.heap.length) := by
  obtain ⟨h1, h2, h3⟩ := Get_spec mb.heap mb.messagePool choice hfree hnext
  unfold Send
  simp only [hz, hopen, hhead]
  rcases hG : Get mb.heap mb.messagePool choice with ⟨a, heap1, free1⟩
  rw [hG] at h1 h2 h3
  simp only at h1 h2 h3
  refine ⟨_, a, rfl, rfl, rfl, ?_, ?_, ?_⟩
  · have hn := load_of_mem_next heap1 h2 a
    rw [load, List.getD_eq_getElem _ _ (by simpa using h1)]
    simp [hn]
  · intro node hn
    rcases List.mem_or_eq_of_mem_set hn with h | h
    · exact h2 _ h
    · simp [h, load_of_mem_next heap1 h2 a]
  · intro b hb
    simp at hb ⊢
    rcases hb with h | h
    · omega
    · exact h3 b h

theorem isChain_cons (heap : List (Message M)) (head : Option Nat) (b : Nat) (rest : List Nat)
    (h : isChain heap head (b :: rest) = true) :
    head = some b ∧ isChain heap (load heap b).next rest = true := by
  cases head with
  | none => simp [isChain] at h
  | some a =>
    simp only [isChain, Bool.and_eq_true, beq_iff_eq] at h
    obtain ⟨h1, h2⟩ := h
    subst h1
    exact ⟨rfl, h2⟩

theorem isChain_nil (heap : List (Message M)) (head : Option Nat)
    (h : isChain heap head [] = true) : head = none := by
  cases head with
  | none => rfl
  | some a => simp [isChain] at h

theorem isChain_head (heap : List (Message M)) (head : Option Nat) (addrs : List Nat)
    (h : isChain heap head addrs = true) : head = addrs.head? := by
  cases addrs with
  | nil => exact isChain_nil heap head h
  | cons b rest => exact (isChain_cons heap head b rest h).1

theorem isChain_drop (heap : List (Message M)) (k : Nat) : ∀ (head : Option Nat)
    (addrs : List Nat), isChain heap head addrs = true →
    isChain heap (addrs.drop k).head? (addrs.drop k) = true := by
  induction k with
  | zero =>
    intro head addrs h
    rw [List.drop_zero, ← isChain_head heap head addrs h]
    exact h
  | succ k ih =>
    intro head addrs h
    cases addrs with
    | nil => rfl
    | cons b rest =>
      rw [List.drop_succ_cons]
      exact ih _ rest (isChain_cons heap head b rest h).2

theorem drain_chain (addrs : List Nat) : ∀ (mb : Mailbox M) (fuel : Nat),
    isChain mb.heap mb.head addrs = true → addrs.length < fuel →
    drain fuel mb = some { mb with head := none,
                                   messagePool := addrs.reverse ++ mb.messagePool } := by
  induction addrs with
  | nil =>
    intro mb fuel h hf
    have hh := isChain_nil _ _ h
    cases fuel with
    | zero => simp at hf
    | succ n =>
      unfold drain
      simp only [hh]
      cases mb
      simp_all
  | cons b rest ih =>
    intro mb fuel h hf
    obtain ⟨hh, hc⟩ := isChain_cons _ _ _ _ h
    cases fuel with
    | zero => simp at hf
    | succ n =>
      unfold drain
      simp only [hh]
      rw [ih _ n hc (by simpa using hf)]
      simp [Put]

theorem load_next_valid (heap : List (Message M))
    (hnext : ∀ node ∈ heap, ∀ a, node.next = some a → a < heap.length) (b a : Nat)
    (h : (load heap b).next = some a) : a < heap.length := by
  unfold load at h
  by_cases hb : b < heap.length
  · rw [List.getD_eq_getElem _ _ hb] at h
    exact hnext _ (List.getElem_mem _) a h
  · rw [List.getD_eq_default _ _ (by omega)] at h
    simp at h

theorem Get_valid (heap : List (Message M)) (free : List Nat) (choice : Option Nat)
    (hfree : ∀ a ∈ free, a < heap.length)
    (hnext : ∀ node ∈ heap, ∀ a, node.next = some a → a < heap.length) :
    (Get heap free choice).1 < (Get heap free choice).2.1.length ∧
    heap.length ≤ (Get heap free choice).2.1.length ∧
    (∀ node ∈ (Get heap free choice).2.1, ∀ a, node.next = some a →
      a < (Get heap free choice).2.1.length) ∧
    (∀ b ∈ (Get heap free choice).2.2, b < (Get heap free choice).2.1.length) := by
  have hfresh : heap.length < (heap ++ [(⟨Comparable.zero, none⟩ : Message M)]).length ∧
      heap.length ≤ (heap ++ [(⟨Comparable.zero, none⟩ : Message M)]).length ∧
      (∀ node ∈ heap ++ [(⟨Comparable.zero, none⟩ : Message M)], ∀ a, node.next = some a →
        a < (heap ++ [(⟨Comparable.zero, none⟩ : Message M)]).length) ∧
      (∀ b ∈ free, b < (heap ++ [(⟨Comparable.zero, none⟩ : Message M)]).length) := by
    refine ⟨by simp, by simp, ?_, ?_⟩
    · intro node hn a ha
      rcases List.mem_append.1 hn with h | h
      · have := hnext _ h a ha
        simp; omega
      · simp at h; subst h; simp at ha
    · intro b hb
      have := hfree b hb
      simp; omega
  cases choice with
  | none => simp only [Get]; exact hfresh
  | some i =>
    cases hg : free.get? i with
    | none => simp only [Get, hg]; exact hfresh
    | some a =>
      simp only [Get, hg]
      exact ⟨hfree a (List.get?_mem hg), le_refl _, hnext,
        fun b hb => hfree b (List.mem_of_mem_eraseIdx hb)⟩

theorem Send_valid (mb : Mailbox M) (message : M) (choice : Option Nat) (b : Bool)
    (mb1 : Mailbox M) (hv : Valid mb) (h : Send mb message choice = some (b, mb1)) :
    Valid mb1 := by
  obtain ⟨hhead, htail, hfree, hnext, hht⟩ := hv
  unfold Send at h
  split at h
  · cases h; exact ⟨hhead, htail, hfree, hnext, hht⟩
  split at h
  · cases h; exact ⟨hhead, htail, hfree, hnext, hht⟩
  obtain ⟨g1, g0, g2, g3⟩ := Get_valid mb.heap mb.messagePool choice hfree hnext
  rcases hG : Get mb.heap mb.messagePool choice with ⟨a, heap1, free1⟩
  rw [hG] at h g1 g0 g2 g3
  simp only at h g1 g0 g2 g3
  have hset : ∀ node ∈ heap1.set a { load heap1 a with message := message }, ∀ c,
      node.next = some c → c < heap1.length := by
    intro node hn c hc
    rcases List.mem_or_eq_of_mem_set hn with h1 | h1
    · exact g2 _ h1 c hc
    · subst h1
      exact load_next_valid heap1 g2 a c hc
  cases hh : mb.head with
  | none =>
    rw [hh] at h
    simp only [Option.some.injEq, Prod.mk.injEq] at h
    obtain ⟨_, rfl⟩ := h
    refine ⟨?_, ?_, ?_, ?_, ?_⟩
    · intro c hc; simp at hc; subst hc; simpa using g1
    · intro c hc; simp at hc; subst hc; simpa using g1
    · intro c hc; simpa using g3 c hc
    · intro node hn c hc; simpa using hset node hn c hc
    · intro _; simp
  | some hd =>
    rw [hh] at h
    cases ht : mb.tail with
    | none => rw [ht] at h; simp at h
    | some t =>
      rw [ht] at h
      simp only [Option.some.injEq, Prod.mk.injEq] at h
      obtain ⟨_, rfl⟩ := h
      have htv : t < heap1.length := lt_of_lt_of_le (htail t ht) g0
      have hload : (load ((heap1.set a { load heap1 a with message := message }).set t
          { load (heap1.set a { load heap1 a with message := message }) t with
            next := some a }) t).next = some a := by
        rw [load, List.getD_eq_getElem _ _ (by simpa using htv)]
        simp
      refine ⟨?_, ?_, ?_, ?_, ?_⟩
      · intro c hc
        have := hhead c (by simpa [hh] using hc)
        simp; omega
      · intro c hc
        simp only [hload, Option.some.injEq] at hc
        subst hc
        simpa using g1
      · intro c hc; simpa using g3 c hc
      · intro node hn c hc
        simp only [List.length_set]
        rcases List.mem_or_eq_of_mem_set hn with h1 | h1
        · exact hset node h1 c hc
        · subst h1
          simp at hc
          subst hc
          exact g1
      · intro _
        simp [hload]

theorem Receive_valid (mb : Mailbox M) (res : Bool × M) (mb1 : Mailbox M) (hv : Valid mb)
    (h : Receive mb = some (res, mb1)) : Valid mb1 := by
  obtain ⟨hhead, htail, hfree, hnext, hht⟩ := hv
  unfold Receive at h
  split at h
  · rename_i a ha
    simp only [Option.some.injEq, Prod.mk.injEq] at h
    obtain ⟨_, rfl⟩ := h
    refine ⟨?_, htail, ?_, hnext, ?_⟩
    · intro c hc
      exact load_next_valid mb.heap hnext a c hc
    · intro c hc
      simp only [Put, List.mem_cons] at hc
      rcases hc with rfl | hc
      · exact hhead _ ha
      · exact hfree c hc
    · intro _
      exact hht (by simp [ha])
  · split at h
    · cases h; exact ⟨hhead, htail, hfree, hnext, hht⟩
    · simp at h

theorem drain_valid (fuel : Nat) : ∀ (mb mb1 : Mailbox M), Valid mb →
    drain fuel mb = some mb1 → Valid mb1 := by
  induction fuel with
  | zero => intro mb mb1 _ h; simp [drain] at h
  | succ n ih =>
    intro mb mb1 hv h
    unfold drain at h
    split at h
    · cases h; exact hv
    · rename_i a ha
      refine ih _ mb1 ?_ h
      obtain ⟨hhead, htail, hfree, hnext, hht⟩ := hv
      refine ⟨?_, htail, ?_, hnext, ?_⟩
      · intro c hc
        exact load_next_valid mb.heap hnext a c hc
      · intro c hc
        simp only [Put, List.mem_cons] at hc
        rcases hc with rfl | hc
        · exact hhead _ ha
        · exact hfree c hc
      · intro _
        exact hht (by simp [ha])

theorem Close_valid (fuel : Nat) (mb mb1 : Mailbox M) (hv : Valid mb)
    (h : Close fuel mb = some mb1) : Valid mb1 := by
  unfold Close at h
  split at h
  · exact drain_valid fuel { mb with isOpen := false } mb1 hv h
  · cases h; exact hv

theorem exec_valid (r r1 : Run M) (op : Op M) (hv : Valid r.mb) (h : exec r op = some r1) :
    Valid r1.mb := by
  cases op with
  | Send message choice =>
    simp only [exec, Option.map_eq_some'] at h
    obtain ⟨⟨b, mb1⟩, hs, rfl⟩ := h
    exact Send_valid r.mb message choice b mb1 hv hs
  | Receive =>
    simp only [exec, Option.map_eq_some'] at h
    obtain ⟨⟨res, mb1⟩, hs, rfl⟩ := h
    exact Receive_valid r.mb res mb1 hv hs
  | Close fuel =>
    simp only [exec, Option.map_eq_some'] at h
    obtain ⟨mb1, hs, rfl⟩ := h
    exact Close_valid fuel r.mb mb1 hv hs

theorem execAll_valid (ops : List (Op M)) : ∀ (r r1 : Run M), Valid r.mb →
    execAll r ops = some r1 → Valid r1.mb := by
  induction ops with
  | nil => intro r r1 hv h; simp only [execAll, Option.some.injEq] at h; subst h; exact hv
  | cons op ops ih =>
    intro r r1 hv h
    simp only [execAll, Option.bind_eq_some] at h
    obtain ⟨r2, h2, h3⟩ := h
    exact ih r2 r1 (exec_valid r r2 op hv h2) h3

end mailbox

/-! ## The actor -/

namespace genserver

open mailbox

variable {ID State Store W : Type}

theorem loopIter_stopped (d : Nat) (sys : Sys ID State Store W) (h : sys.worker ≠ .Running) :
    loopIter d sys = sys := by
  unfold loopIter
  simp [h]

theorem loop_stopped (d n : Nat) (sys : Sys ID State Store W) (h : sys.worker ≠ .Running) :
    loop d n sys = sys := by
  induction n with
  | zero => rfl
  | succ n ih => rw [loop, loopIter_stopped d sys h, ih]

theorem loopIter_waiting (d : Nat) (sys : Sys ID State Store W)
    (hh : sys.server.messages.head = none) (ho : sys.server.messages.isOpen = true) :
    loopIter d sys = sys := by
  unfold loopIter Receive
  simp [hh, ho]

theorem loop_waiting (d n : Nat) (sys : Sys ID State Store W)
    (hh : sys.server.messages.head = none) (ho : sys.server.messages.isOpen = true) :
    loop d n sys = sys := by
  induction n with
  | zero => rfl
  | succ n ih => rw [loop, loopIter_waiting d sys hh ho, ih]

theorem loopIter_receive (d : Nat) (sys : Sys ID State Store W) (a : Nat)
    (hw : sys.worker = .Running) (hh : sys.server.messages.head = some a) :
    loopIter d sys = process d (load sys.server.messages.heap a).message
      (setMessages sys { sys.server.messages with
        messagePool := Put sys.server.messages.messagePool a,
        head := (load sys.server.messages.heap a).next }) := by
  unfold loopIter Receive
  simp [hw, hh]

theorem chanSend_new (chans : Chans) (v : Value) :
    chanSend (chans ++ [none]) chans.length v = some (chans ++ [some v]) := by
  unfold chanSend
  simp

theorem chanRecv_new (chans : Chans) (v : Value) :
    chanRecv (chans ++ [some v]) chans.length = some (v, chans ++ [none]) := by
  unfold chanRecv
  simp

theorem process_handler (d : Nat) (hd : Handler State W) (sys : Sys ID State Store W)
    (hns : isShutdown (some hd) = false) : process d (some hd) sys = handle d hd sys := by
  unfold process
  simp only [hns]
  rfl

theorem handle_ok (d : Nat) (hd : Handler State W) (sys : Sys ID State State W)
    (hm : sys.server.stateMutator = simpleAccessor.ModifyState)
    (herr : (hd.Handle sys.store sys.world).1.2 = none) :
    handle d hd sys = deliver (hd.Handle sys.store sys.world).1.1
      { sys with store := (hd.Handle sys.store sys.world).2.1,
                 world := (hd.Handle sys.store sys.world).2.2 } := by
  unfold handle
  simp only [hm, simpleAccessor.ModifyState]
  rcases hH : hd.Handle sys.store sys.world with ⟨⟨rv, err⟩, s1, w1⟩
  rw [hH] at herr
  simp only at herr
  subst herr
  rfl

theorem loopIter_ok (d : Nat) (sys : Sys ID State State W) (a : Nat) (hd : Handler State W)
    (hw : sys.worker = .Running)
    (hm : sys.server.stateMutator = simpleAccessor.ModifyState)
    (hh : sys.server.messages.head = some a)
    (hmsg : (load sys.server.messages.heap a).message = some hd)
    (hns : isShutdown (some hd) = false)
    (herr : (hd.Handle sys.store sys.world).1.2 = none) :
    loopIter d sys = deliver (hd.Handle sys.store sys.world).1.1
      { sys with
        store := (hd.Handle sys.store sys.world).2.1,
        world := (hd.Handle sys.store sys.world).2.2,
        server := { sys.server with messages := { sys.server.messages with
          messagePool := Put sys.server.messages.messagePool a,
          head := (load sys.server.messages.heap a).next } } } := by
  rw [loopIter_receive d sys a hw hh, hmsg, process_handler d hd _ hns]
  exact handle_ok d hd _ hm herr

theorem Call_idle {Message Ret : Type} [Inhabited Ret] [ToString ID]
    (sys : Sys ID State State W) (s : State) (message : Message)
    (handler : CallHandler State Message Ret) (choice : Option Nat) (d n : Nat) (dump : String)
    (hidle : Idle sys s) (herr : (handler s message).2.2 = none) :
    ∃ sys1, Call sys message handler choice (loop d (n + 1)) dump
        = .ret ((⟨Ret, (handler s message).2.1⟩, none), sys1) ∧
      Idle sys1 (handler s message).1 := by
  obtain ⟨hw, hm, hs, hh, ho, hf, hn⟩ := hidle
  obtain ⟨mb1, a, hS, hhead, hopen1, hload, hnext1, hfree1⟩ :=
    Send_empty sys.server.messages
      (some (.call ⟨message, some sys.chans.length, handler⟩)) choice rfl ho hh hf hn
  unfold Call
  simp only [makeChan, hS]
  have hiter : loop d (n + 1) (setMessages { sys with chans := sys.chans ++ [none] } mb1)
      = { sys with
          store := (handler s message).1,
          chans := sys.chans ++ [some ⟨Ret, (handler s message).2.1⟩],
          server := { sys.server with
            messages := { mb1 with messagePool := Put mb1.messagePool a, head := none } } } := by
    rw [loop, loopIter_ok d (setMessages { sys with chans := sys.chans ++ [none] } mb1) a
      (.call ⟨message, some sys.chans.length, handler⟩) hw hm hhead
      (by rw [setMessages]; simp only [hload]) rfl
      (by simpa [Handler.Handle, CallMessageHandler.Handle, setMessages, hs] using herr)]
    simp only [Handler.Handle, CallMessageHandler.Handle, deliver, MessageReturner.Return,
      chanSend_new, hs, setMessages, hload]
    rw [loop_waiting _ _ _ rfl hopen1]
  rw [hiter]
  simp only [chanRecv_new]
  refine ⟨_, rfl, hw, hm, rfl, rfl, hopen1, ?_, hnext1⟩
  intro b hb
  exact hfree1 b (by simpa [Put] using hb)

theorem callAll_idle {Message Ret : Type} [Inhabited Ret] [ToString ID]
    (d n : Nat) (dump : String)
    (calls : List (Message × CallHandler State Message Ret × Option Nat)) :
    ∀ (sys : Sys ID State State W) (s : State), Idle sys s → callsOK s calls →
    ∃ sys1, callAll (loop d (n + 1)) dump sys calls
        = .ret ((callResults s calls).map (fun r => (⟨Ret, r⟩, none)), sys1) ∧
      Idle sys1 (callState s calls) := by
  induction calls with
  | nil =>
    intro sys s hidle _
    exact ⟨sys, rfl, hidle⟩
  | cons c rest ih =>
    intro sys s hidle hok
    obtain ⟨message, handler, choice⟩ := c
    obtain ⟨herr, hrest⟩ := hok
    obtain ⟨sys1, hcall, hidle1⟩ := Call_idle sys s message handler choice d n dump hidle herr
    obtain ⟨sys2, hall, hidle2⟩ := ih sys1 _ hidle1 hrest
    refine ⟨sys2, ?_, hidle2⟩
    simp only [callAll, hcall, hall, callResults, List.map_cons]

theorem Spawn_idle (kind : String) (id : ID) (s0 : State) (w : W) :
    Idle (Spawn kind id (simpleAccessor.ModifyState : StateMutator State State W) none s0 w)
      s0 := by
  refine ⟨rfl, rfl, rfl, rfl, rfl, ?_, ?_⟩
  · intro a ha
    simp [Spawn, Start, New, NewMailbox] at ha
  · intro node hn
    simp [Spawn, Start, New, NewMailbox] at hn

/-- C2. An actor is spawned over the state `s0` with the state mutator that applies the
function directly to the state. For every sequence of `Call`s issued one after another
(each returns before the next is issued; the worker gets at least one pass of its loop
while the caller waits; the pool may hand out any node for each `Send`) whose handlers
return no error, the i-th `Call` returns the value its handler computes on the state
left by the handlers before it, with a nil error, and a following `Get` returns the
state obtained by applying all the handlers in order to `s0`. -/
theorem Calls_compose_sequentially {Message Ret : Type} [Inhabited Ret] [Inhabited State]
    [ToString ID] (kind : String) (id : ID) (s0 : State) (w : W)
    (calls : List (Message × CallHandler State Message Ret × Option Nat))
    (d n : Nat) (dump : String) (choice : Option Nat) (hok : callsOK s0 calls) :
    ∃ sys : Sys ID State State W,
      callAll (loop d (n + 1)) dump (Spawn kind id simpleAccessor.ModifyState none s0 w) calls
        = .ret ((callResults s0 calls).map (fun r => (⟨Ret, r⟩, none)), sys) ∧
      ∃ sys1, Get sys choice (loop d (n + 1)) dump
        = .ret ((⟨State, callState s0 calls⟩, none), sys1) := by
  obtain ⟨sys, hall, hidle⟩ :=
    callAll_idle d n dump calls (Spawn kind id simpleAccessor.ModifyState none s0 w) s0
      (Spawn_idle kind id s0 w) hok
  refine ⟨sys, hall, ?_⟩
  obtain ⟨sys1, hget, _⟩ :=
    Call_idle sys (callState s0 calls) () (fun s (_ : Unit) => (s, s, none)) choice d n dump
      hidle rfl
  exact ⟨sys1, hget⟩

theorem Calls_compose_sequentially_witness :
    ∃ sys : Sys String Nat Nat Unit,
      callAll (loop 1 1) "" (Spawn "counter" "1" simpleAccessor.ModifyState none 0 ())
          [(1, add, none), (1, add, some 0), (1, subtract, some 0)]
        = .ret ([(⟨Nat, 1⟩, none), (⟨Nat, 2⟩, none), (⟨Nat, 1⟩, none)], sys) ∧
      ∃ sys1, Get sys (some 0) (loop 1 1) "" = .ret ((⟨Nat, 1⟩, none), sys1) :=
  Calls_compose_sequentially "counter" "1" 0 ()
    [(1, add, none), (1, add, some 0), (1, subtract, some 0)] 1 0 "" (some 0)
    ⟨rfl, rfl, rfl, trivial⟩

theorem Handle_world (hd : Handler State W) (s : State) (w : W)
    (hns : isShutdown (some hd) = false) : (hd.Handle s w).2.2 = w := by
  cases hd with
  | call m => rfl
  | cast m => rfl
  | shutdown m => simp [isShutdown] at hns

theorem deliver_ok (hd : Handler State W) (s : State) (w : W) (sys : Sys ID State Store W)
    (hns : isShutdown (some hd) = false)
    (hc : ∀ c, resultChan hd = some c → sys.chans.get? c = some none) :
    deliver (hd.Handle s w).1.1 sys = { sys with chans := deliverOne hd s sys.chans } := by
  cases hd with
  | call m =>
    simp only [Handler.Handle, CallMessageHandler.Handle, deliver, MessageReturner.Return,
      deliverOne]
    cases hr : m.returnChan with
    | none => rfl
    | some c =>
      have := hc c (by simp [resultChan, hr])
      simp only [chanSend, this]
  | cast m => rfl
  | shutdown m => simp [isShutdown] at hns

theorem chansReady_tail (hd : Handler State W) (ms : List (Handler State W)) (s : State)
    (chans : Chans) (h : chansReady (hd :: ms) chans) :
    chansReady ms (deliverOne hd s chans) := by
  obtain ⟨hnd, hemp⟩ := h
  cases hr : resultChan hd with
  | none =>
    have hsame : deliverOne hd s chans = chans := by
      cases hd with
      | call m =>
        simp only [resultChan] at hr
        simp only [deliverOne, hr]
      | cast m => rfl
      | shutdown m => rfl
    rw [hsame]
    simp only [List.filterMap_cons, hr] at hnd hemp
    exact ⟨hnd, hemp⟩
  | some c =>
    simp only [List.filterMap_cons, hr, List.nodup_cons] at hnd hemp
    cases hd with
    | call m =>
      simp only [resultChan] at hr
      simp only [deliverOne, hr]
      refine ⟨hnd.2, fun c1 hc1 => ?_⟩
      have hne : c ≠ c1 := fun e => hnd.1 (e ▸ hc1)
      have := hemp c1 (List.mem_cons_of_mem _ hc1)
      simpa [List.getElem?_set_ne hne] using this
    | cast m => simp [resultChan] at hr
    | shutdown m => simp [resultChan] at hr

theorem Handle_state (hd : Handler State W) (s : State) (w : W) :
    (hd.Handle s w).2.1 = hd.applied s := by
  cases hd <;> rfl

theorem Handle_error (hd : Handler State W) (s : State) (w : W) :
    (hd.Handle s w).1.2 = hd.failure w s := by
  cases hd <;> rfl

theorem loop_handlers (d : Nat) (ms : List (Handler State W)) :
    ∀ (sys : Sys ID State State W) (addrs : List Nat) (rest : List (MessageHandler State W)),
    sys.worker = .Running → sys.server.stateMutator = simpleAccessor.ModifyState →
    isChain sys.server.messages.heap sys.server.messages.head addrs = true →
    addrs.map (fun a => (load sys.server.messages.heap a).message) = ms.map some ++ rest →
    (∀ hd ∈ ms, isShutdown (some hd) = false) →
    noErrors sys.world ms sys.store → chansReady ms sys.chans →
    loop d ms.length sys = { sys with
      store := applyAll ms sys.store,
      chans := delivered ms sys.store sys.chans,
      server := { sys.server with messages := { sys.server.messages with
        head := (addrs.drop ms.length).head?,
        messagePool := (addrs.take ms.length).reverse ++ sys.server.messages.messagePool } } } := by
  induction ms with
  | nil =>
    intro sys addrs rest hw hm hc hmap hns herr hch
    have := isChain_head _ _ _ hc
    simp only [List.length_nil, loop, List.drop_zero, ← this, applyAll, delivered,
      List.take_zero, List.reverse_nil, List.nil_append]
  | cons hd ms ih =>
    intro sys addrs rest hw hm hc hmap hns herr hch
    cases addrs with
    | nil => simp at hmap
    | cons a addrs =>
      simp only [List.map_cons, List.cons_append, List.cons.injEq] at hmap
      obtain ⟨hmsg, hmap⟩ := hmap
      obtain ⟨hh, hc⟩ := isChain_cons _ _ _ _ hc
      obtain ⟨he, herr⟩ := herr
      have hns1 := hns hd (List.mem_cons_self _ _)
      have hw1 := Handle_world hd sys.store sys.world hns1
      have hch1 : ∀ c, resultChan hd = some c → sys.chans.get? c = some none := by
        intro c hc1
        exact hch.2 c (by simp [List.filterMap_cons, hc1])
      have hch2 : chansReady ms (deliverOne hd sys.store sys.chans) :=
        chansReady_tail hd ms sys.store sys.chans hch
      have h1 : loopIter d sys = { sys with
          store := hd.applied sys.store,
          chans := deliverOne hd sys.store sys.chans,
          server := { sys.server with messages := { sys.server.messages with
            messagePool := Put sys.server.messages.messagePool a,
            head := (load sys.server.messages.heap a).next } } } := by
        rw [loopIter_ok d sys a hd hw hm hh hmsg hns1
          ((Handle_error hd sys.store sys.world).trans he)]
        refine (deliver_ok hd sys.store sys.world _ hns1 ?_).trans ?_
        · exact hch1
        · simp only [hw1, Handle_state]
      have h2 := ih { sys with
          store := hd.applied sys.store,
          chans := deliverOne hd sys.store sys.chans,
          server := { sys.server with messages := { sys.server.messages with
            messagePool := Put sys.server.messages.messagePool a,
            head := (load sys.server.messages.heap a).next } } } addrs rest hw hm hc hmap
          (fun x hx => hns x (List.mem_cons_of_mem _ hx)) herr hch2
      rw [List.length_cons, loop, h1, h2]
      simp only [applyAll, delivered, List.drop_succ_cons, List.take_succ_cons,
          List.reverse_cons, List.append_assoc, List.singleton_append, Put]

theorem loop_add (d m n : Nat) (sys : Sys ID State Store W) :
    loop d (m + n) sys = loop d n (loop d m sys) := by
  induction m generalizing sys with
  | zero => simp [loop]
  | succ m ih => rw [Nat.succ_add, loop, ih, loop]

theorem loopIter_shutdown (d : Nat) (sys : Sys ID State Store W) (a : Nat)
    (sd : ShutdownMessageHandler State W) (addrs : List Nat)
    (hw : sys.worker = .Running) (ho : sys.server.messages.isOpen = true)
    (hh : sys.server.messages.head = some a)
    (hmsg : (load sys.server.messages.heap a).message = some (.shutdown sd))
    (hc : isChain sys.server.messages.heap (load sys.server.messages.heap a).next addrs = true)
    (hd : addrs.length < d) :
    loopIter d sys = handle d (.shutdown sd) (setMessages sys { sys.server.messages with
      isOpen := false, head := none,
      messagePool := addrs.reverse ++ a :: sys.server.messages.messagePool }) := by
  rw [loopIter_receive d sys a hw hh, hmsg]
  unfold process
  simp only [isShutdown, if_true, setMessages, Close, ho]
  rw [drain_chain addrs _ d hc hd]
  rfl

theorem handle_shutdown (d : Nat) (sd : ShutdownMessageHandler State W)
    (sys : Sys ID State State W) (hm : sys.server.stateMutator = simpleAccessor.ModifyState)
    (ho : sys.server.messages.isOpen = false) :
    handle d (.shutdown sd) sys = { sys with
      world := (sd.h sys.store sd.r sys.world).1,
      log := sys.log ++
        (sd.h sys.store sd.r sys.world).2.toList.map fun e => "Processing message: " ++ e } := by
  unfold handle
  simp only [hm, simpleAccessor.ModifyState, Handler.Handle, ShutdownMessageHandler.Handle]
  cases herr : (sd.h sys.store sd.r sys.world).2 with
  | none => simp [deliver]
  | some e => simp [deliver, Close, ho, setMessages]

theorem loopIter_closed (d : Nat) (sys : Sys ID State Store W) (hw : sys.worker = .Running)
    (hh : sys.server.messages.head = none) (ho : sys.server.messages.isOpen = false) :
    loopIter d sys = finish sys .Terminated := by
  unfold loopIter Receive
  rw [if_neg (not_not.mpr hw)]
  simp [hh, ho, setMessages]

theorem loop_to_shutdown (d : Nat) (sys : Sys ID State State W) (addrs : List Nat)
    (ms : List (Handler State W)) (sd : ShutdownMessageHandler State W)
    (ns : List (MessageHandler State W))
    (hw : sys.worker = .Running) (hm : sys.server.stateMutator = simpleAccessor.ModifyState)
    (ho : sys.server.messages.isOpen = true)
    (hc : isChain sys.server.messages.heap sys.server.messages.head addrs = true)
    (hmap : addrs.map (fun a => (load sys.server.messages.heap a).message)
      = ms.map some ++ some (.shutdown sd) :: ns)
    (hns : ∀ hd ∈ ms, isShutdown (some hd) = false)
    (herr : noErrors sys.world ms sys.store) (hch : chansReady ms sys.chans)
    (hd : addrs.length ≤ d) :
    loop d (ms.length + 1) sys = handle d (.shutdown sd) { sys with
      store := applyAll ms sys.store,
      chans := delivered ms sys.store sys.chans,
      server := { sys.server with messages := { sys.server.messages with
        isOpen := false, head := none,
        messagePool := addrs.reverse ++ sys.server.messages.messagePool } } } := by
  have hpre := loop_handlers d ms sys addrs _ hw hm hc hmap hns herr hch
  have hdrop : (addrs.drop ms.length).map (fun a => (load sys.server.messages.heap a).message)
      = some (.shutdown sd) :: ns := by
    rw [List.map_drop, hmap]
    simp
  have hcd := isChain_drop sys.server.messages.heap ms.length _ addrs hc
  have hsplit := List.take_append_drop ms.length addrs
  cases hdr : addrs.drop ms.length with
  | nil => rw [hdr] at hdrop; simp at hdrop
  | cons a rest =>
    rw [hdr] at hdrop hcd hsplit
    simp only [List.map_cons, List.cons.injEq] at hdrop
    have hlen : rest.length < d := by
      have := congrArg List.length hsplit
      simp at this
      omega
    rw [loop_add, hpre, loop, loop]
    refine (loopIter_shutdown d _ a sd rest ?_ ?_ ?_ ?_ ?_ hlen).trans ?_
    · exact hw
    · exact ho
    · show (List.drop ms.length addrs).head? = some a
      rw [hdr]; rfl
    · exact hdrop.1
    · exact (isChain_cons _ _ _ _ hcd).2
    have hpool : rest.reverse ++ a :: ((addrs.take ms.length).reverse ++
        sys.server.messages.messagePool) = addrs.reverse ++ sys.server.messages.messagePool := by
      conv_rhs => rw [← hsplit]
      simp
    simp only [setMessages, hpool]

theorem loop_after_shutdown (d : Nat) (sys : Sys ID State State W) (addrs : List Nat)
    (ms : List (Handler State W)) (sd : ShutdownMessageHandler State W)
    (ns : List (MessageHandler State W))
    (hw : sys.worker = .Running) (hm : sys.server.stateMutator = simpleAccessor.ModifyState)
    (ho : sys.server.messages.isOpen = true)
    (hc : isChain sys.server.messages.heap sys.server.messages.head addrs = true)
    (hmap : addrs.map (fun a => (load sys.server.messages.heap a).message)
      = ms.map some ++ some (.shutdown sd) :: ns)
    (hns : ∀ hd ∈ ms, isShutdown (some hd) = false)
    (herr : noErrors sys.world ms sys.store) (hch : chansReady ms sys.chans)
    (hd : addrs.length ≤ d) :
    loop d (ms.length + 1) sys = { sys with
      store := applyAll ms sys.store,
      chans := delivered ms sys.store sys.chans,
      world := (sd.h (applyAll ms sys.store) sd.r sys.world).1,
      log := sys.log ++ (sd.h (applyAll ms sys.store) sd.r sys.world).2.toList.map
        fun e => "Processing message: " ++ e,
      server := { sys.server with messages := { sys.server.messages with
        isOpen := false, head := none,
        messagePool := addrs.reverse ++ sys.server.messages.messagePool } } } ∧
    ∀ n, loop d (ms.length + 1 + (n + 1)) sys = finish (loop d (ms.length + 1) sys) .Terminated := by
  refine ⟨?_, fun n => ?_⟩
  · exact (loop_to_shutdown d sys addrs ms sd ns hw hm ho hc hmap hns herr hch hd).trans
      (handle_shutdown d sd _ (by exact hm) (by rfl))
  · have h1 := (loop_to_shutdown d sys addrs ms sd ns hw hm ho hc hmap hns herr hch hd).trans
      (handle_shutdown d sd _ (by exact hm) (by rfl))
    rw [loop_add, loop]
    generalize loop d (ms.length + 1) sys = sys1 at h1 ⊢
    have hc1 : loopIter d sys1 = finish sys1 .Terminated := by
      refine loopIter_closed d sys1 ?_ ?_ ?_
      · rw [h1]; exact hw
      · rw [h1]
      · rw [h1]
    rw [hc1, loop_stopped]
    simp [finish]

/-- A queue without stale links: the `next` links from `head` run through exactly the
nodes of the queue and end in nil. The mailbox of a running actor (open, with the state
mutator that applies the function directly) holds the handlers `ms`, none of them a
Shutdown, each call among them with an empty result channel of its own, then a Shutdown
with reason `r` and finalizer `fin` (and whatever else behind it). If the handlers in
`ms` return no error,
the loop leaves the world as the finalizer leaves it when invoked once, on the world as
it was, with the reason `r` and the state obtained by applying `ms` in order to the
initial state; the worker is then terminated and nothing runs any more, however many
further passes the loop is given. -/
theorem Shutdown_finalizer_sees_final_state (d : Nat) (sys : Sys ID State State W)
    (addrs : List Nat) (ms : List (Handler State W)) (r : ShutdownReason)
    (fin : ShutdownHandler State W) (ns : List (MessageHandler State W))
    (hw : sys.worker = .Running) (hm : sys.server.stateMutator = simpleAccessor.ModifyState)
    (ho : sys.server.messages.isOpen = true)
    (hc : isChain sys.server.messages.heap sys.server.messages.head addrs = true)
    (hmap : addrs.map (fun a => (load sys.server.messages.heap a).message)
      = ms.map some ++ some (.shutdown ⟨r, fin⟩) :: ns)
    (hns : ∀ hd ∈ ms, isShutdown (some hd) = false)
    (herr : noErrors sys.world ms sys.store) (hch : chansReady ms sys.chans)
    (hd : addrs.length ≤ d) :
    (loop d ms.length sys).world = sys.world ∧
    (loop d (ms.length + 1) sys).world
      = (fin (applyAll ms sys.store) r sys.world).1 ∧
    ∀ n, (loop d (ms.length + 1 + (n + 1)) sys).world
        = (fin (applyAll ms sys.store) r sys.world).1 ∧
      (loop d (ms.length + 1 + (n + 1)) sys).store = applyAll ms sys.store ∧
      (loop d (ms.length + 1 + (n + 1)) sys).worker = .Terminated ∧
      (loop d (ms.length + 1 + (n + 1)) sys).server.terminated = true := by
  have hpre := loop_handlers d ms sys addrs _ hw hm hc hmap hns herr hch
  obtain ⟨h1, h2⟩ :=
    loop_after_shutdown d sys addrs ms ⟨r, fin⟩ ns hw hm ho hc hmap hns herr hch hd
  refine ⟨by rw [hpre], by rw [h1], fun n => ?_⟩
  rw [h2 n, h1]
  exact ⟨rfl, rfl, rfl, rfl⟩

theorem Shutdown_finalizer_sees_final_state_witness :
    (loop 6 6 shutdownTest).world = 1 ∧ (loop 6 7 shutdownTest).worker = .Terminated := by
  have h := Shutdown_finalizer_sees_final_state 6 shutdownTest [0, 1, 2, 3, 4, 5]
    [.call ⟨1, some 0, add⟩, .call ⟨1, some 1, add⟩, .call ⟨1, some 2, subtract⟩,
     .call ⟨1, some 3, subtract⟩, .call ⟨1, some 4, add⟩] .Normal finalValue []
    rfl rfl rfl rfl rfl
    (by intro hd h; simp at h; rcases h with h | h | h | h | h <;> subst h <;> rfl)
    ⟨rfl, rfl, rfl, rfl, rfl, trivial⟩
    ⟨by decide, by
      intro c h
      simp [resultChan] at h
      rcases h with h | h | h | h | h <;> subst h <;> rfl⟩
    (by decide)
  exact ⟨h.2.1, (h.2.2 0).2.2.1⟩

/-- C4, the claim as stated fails in the window between the dequeue and the `Close`.
The loop's `Receive` has returned the Shutdown and released the lock; the mailbox is
still open, so a `Send` issued now returns true. The rest of that pass of the loop then
closes the mailbox, which drains the message just sent, applies the Shutdown handler and
leaves the counter at 5: the message accepted after the dequeue is never applied. -/
theorem Send_after_dequeue_returns_true :
    ∃ mb1 mb2,
      Receive shutdownOnly.server.messages
        = some ((true, some (.shutdown ⟨.Normal, finalValue⟩)), mb1) ∧
      Send mb1 (some (.cast ⟨1, increment⟩)) none = some (true, mb2) ∧
      (process 2 (some (.shutdown ⟨.Normal, finalValue⟩)) (setMessages shutdownOnly mb2)).store
        = 5 ∧
      (process 2 (some (.shutdown ⟨.Normal, finalValue⟩))
        (setMessages shutdownOnly mb2)).server.messages.head = none :=
  ⟨_, _, rfl, rfl, rfl, rfl⟩

/-- C4, amended. The mailbox of a running actor is open and its queue, read along the
`next` links from `head`, is exactly `ms`, a Shutdown, `ns`, ending in nil (no stale
link); the state mutator applies the function directly to the state; the handlers `ms`
are no Shutdowns, return no error, and the calls among them have empty result channels
of their own. (`Close` gets as many passes of its drain loop as the queue is long, or
any number `d` more.) Then the pass of the loop that dequeues the Shutdown applies its
handler in a state `sysC` in which the mailbox is already closed and empty, every `Send`
returns false, and `ms` have all been applied, by their own functions in order; from
that pass on the state and the channels are what `ms` alone left (none of `ns` is
applied), every `Send` returns false and changes nothing, the next `Receive` reports no
more messages, and the worker is terminated after one more pass. (A `Send` issued
between the dequeue and the `Close` is not covered: it can return true.) -/
theorem Shutdown_is_final (d : Nat) (sys : Sys ID State State W)
    (addrs : List Nat) (ms : List (Handler State W)) (sd : ShutdownMessageHandler State W)
    (ns : List (MessageHandler State W))
    (hw : sys.worker = .Running) (hm : sys.server.stateMutator = simpleAccessor.ModifyState)
    (ho : sys.server.messages.isOpen = true)
    (hc : isChain sys.server.messages.heap sys.server.messages.head addrs = true)
    (hmap : addrs.map (fun a => (load sys.server.messages.heap a).message)
      = ms.map some ++ some (.shutdown sd) :: ns)
    (hns : ∀ hd ∈ ms, isShutdown (some hd) = false)
    (herr : noErrors sys.world ms sys.store) (hch : chansReady ms sys.chans) :
    (∃ sysC : Sys ID State State W,
      loop (addrs.length + d) (ms.length + 1) sys = handle (addrs.length + d) (.shutdown sd) sysC ∧
      sysC.server.messages.isOpen = false ∧ sysC.server.messages.head = none ∧
      sysC.store = applyAll ms sys.store ∧
      sysC.chans = delivered ms sys.store sys.chans ∧
      sysC.world = sys.world ∧
      ∀ message choice, Send sysC.server.messages message choice
        = some (false, sysC.server.messages)) ∧
    (∀ n, (loop (addrs.length + d) (ms.length + 1 + n) sys).store = applyAll ms sys.store ∧
      (loop (addrs.length + d) (ms.length + 1 + n) sys).chans = delivered ms sys.store sys.chans ∧
      (loop (addrs.length + d) (ms.length + 1 + n) sys).world
        = (sd.h (applyAll ms sys.store) sd.r sys.world).1 ∧
      ∀ message choice, Send (loop (addrs.length + d) (ms.length + 1 + n) sys).server.messages message choice
        = some (false, (loop (addrs.length + d) (ms.length + 1 + n) sys).server.messages)) ∧
    Receive (loop (addrs.length + d) (ms.length + 1) sys).server.messages
      = some ((false, none), (loop (addrs.length + d) (ms.length + 1) sys).server.messages) ∧
    (loop (addrs.length + d) (ms.length + 2) sys).worker = .Terminated ∧
    (loop (addrs.length + d) (ms.length + 2) sys).server.terminated = true := by
  obtain ⟨h1, h2⟩ :=
    loop_after_shutdown (addrs.length + d) sys addrs ms sd ns hw hm ho hc hmap hns herr hch
      (Nat.le_add_right _ _)
  refine ⟨⟨_, loop_to_shutdown (addrs.length + d) sys addrs ms sd ns hw hm ho hc hmap hns herr
      hch (Nat.le_add_right _ _),
    rfl, rfl, rfl, rfl, rfl, fun message choice => Send_of_closed _ _ _ rfl⟩,
    fun n => ?_, ?_, ?_, ?_⟩
  · cases n with
    | zero =>
      rw [Nat.add_zero, h1]
      exact ⟨rfl, rfl, rfl, fun message choice => Send_of_closed _ _ _ rfl⟩
    | succ n =>
      rw [h2 n, h1]
      exact ⟨rfl, rfl, rfl, fun message choice => Send_of_closed _ _ _ rfl⟩
  · rw [h1]
    rfl
  · rw [show ms.length + 2 = ms.length + 1 + (0 + 1) from rfl, h2 0]
    rfl
  · rw [show ms.length + 2 = ms.length + 1 + (0 + 1) from rfl, h2 0]
    rfl

theorem Shutdown_is_final_witness :
    (∀ n, (loop 3 (2 + n) finalityTest).store = 6 ∧
      ∀ message choice, Send (loop 3 (2 + n) finalityTest).server.messages message choice
        = some (false, (loop 3 (2 + n) finalityTest).server.messages)) ∧
    (loop 3 3 finalityTest).worker = .Terminated := by
  have h := Shutdown_is_final 0 finalityTest [0, 1, 2] [.cast ⟨1, increment⟩]
    ⟨.Normal, finalValue⟩ [some (.cast ⟨10, increment⟩)] rfl rfl rfl rfl rfl
    (by intro hd h; simp at h; subst h; rfl)
    ⟨rfl, trivial⟩
    ⟨by decide, by intro c h; simp [resultChan] at h⟩
  exact ⟨fun n => ⟨(h.2.1 n).1, (h.2.1 n).2.2.2⟩, h.2.2.2.1⟩

/-- C7, the claim as stated fails on the error. On a closed mailbox `Call` fails with
"call to dead genserver", `Cast` (and `Shutdown`) with "send to dead genserver": not the
same failure. -/
theorem Call_dead_error_differs_from_Cast :
    ∃ sys1 sys2,
      Call deadTest 1 add none (loop 1 1) ""
        = .ret ((⟨Nat, 0⟩, some (.errorString "call to dead genserver")), sys1) ∧
      Cast deadTest 1 increment none
        = .ret (some (.errorString "send to dead genserver"), sys2) ∧
      (GoError.errorString "call to dead genserver" : GoError String)
        ≠ .errorString "send to dead genserver" :=
  ⟨_, _, rfl, rfl, by decide⟩

/-- C7, amended. On an actor whose mailbox is closed, `Call` returns the zero value of
the result type together with the error "call to dead genserver", whatever the worker
and the timer would do (it does not wait), without a panic; the mailbox, the state and
the world are as before, so nothing was enqueued and the handler cannot be applied. The
only trace it leaves is the result channel it made. `Cast` and `Shutdown` fail there with
the other text, "send to dead genserver", and change nothing. -/
theorem Call_to_dead_actor {Message Ret : Type} [Inhabited Ret] [ToString ID]
    (sys : Sys ID State Store W) (message : Message) (handler : CallHandler State Message Ret)
    (choice : Option Nat) (env : Sys ID State Store W → Sys ID State Store W) (dump : String)
    (castHandler : CastHandler State Message) (reason : ShutdownReason)
    (finalizer : ShutdownHandler State W) (waitUntil : Bool)
    (ho : sys.server.messages.isOpen = false) :
    Call sys message handler choice env dump
      = .ret ((⟨Ret, default⟩, some (.errorString "call to dead genserver")),
          { sys with chans := sys.chans ++ [none] }) ∧
    Cast sys message castHandler choice
      = .ret (some (.errorString "send to dead genserver"), sys) ∧
    Shutdown sys reason finalizer waitUntil choice env
      = .ret (some (.errorString "send to dead genserver"), sys) := by
  refine ⟨?_, ?_, ?_⟩
  · unfold Call
    simp only [makeChan]
    rw [Send_of_closed _ _ _ ho]
  · unfold Cast
    rw [Send_of_closed _ _ _ ho]
  · unfold Shutdown
    rw [Send_of_closed _ _ _ ho]

theorem Call_to_dead_actor_witness :
    Call deadTest 1 add none (loop 1 1) ""
      = .ret ((⟨Nat, 0⟩, some (.errorString "call to dead genserver")),
          { deadTest with chans := deadTest.chans ++ [none] }) :=
  (Call_to_dead_actor deadTest 1 add none (loop 1 1) "" increment .Normal finalValue false
    rfl).1

/-- C8, at the failing input. The memory store holds nothing under the actor's id, so
its `ModifyState` returns the nil function and an error without calling the handler.
The loop logs the error and closes the mailbox, and then calls the nil function: the
worker panics instead of reaching Terminated by the loop's return. -/
theorem loop_panics_on_nil_post_action :
    (loopIter 1 missingIdTest).worker = .Panicked ∧
    (loopIter 1 missingIdTest).log = ["Processing message: Could not load state for ID 1"] ∧
    (loopIter 1 missingIdTest).server.messages.isOpen = false ∧
    (loopIter 1 missingIdTest).store = [] := by
  refine ⟨rfl, ?_, rfl, rfl⟩
  decide

theorem readStack_eq (dump : List Char) (b : Nat) (h : 0 < b) : readStack dump b h = dump := by
  induction' hn : dump.length + 1 - b using Nat.strong_induction_on with n ih generalizing b
  rw [readStack]
  split
  · exact ih _ (by omega) _ _ rfl
  · rw [Nat.min_eq_left (by omega)]
    simp

theorem splitBlocks_ne_nil (s acc : List Char) : splitBlocks s acc ≠ [] := by
  induction s, acc using splitBlocks.induct with
  | case1 acc => simp [splitBlocks]
  | case2 c acc => simp [splitBlocks]
  | case3 c d rest acc h ih => rw [splitBlocks, if_pos h]; simp
  | case4 c d rest acc h ih => rw [splitBlocks, if_neg h]; exact ih

theorem splitBlocks_join (s acc : List Char) :
    List.intercalate ['\n', '\n'] (splitBlocks s acc) = acc ++ s := by
  induction s, acc using splitBlocks.induct with
  | case1 acc => simp [splitBlocks, List.intercalate]
  | case2 c acc => simp [splitBlocks, List.intercalate]
  | case3 c d rest acc h ih =>
    obtain ⟨h1, h2⟩ := h
    subst h1 h2
    rw [splitBlocks, if_pos ⟨rfl, rfl⟩]
    cases hb : splitBlocks rest [] with
    | nil => exact absurd hb (splitBlocks_ne_nil rest [])
    | cons b bs =>
      rw [hb] at ih
      simp only [List.intercalate, List.intersperse_cons₂, List.flatten_cons] at ih ⊢
      rw [ih]
      simp
  | case4 c d rest acc h ih =>
    rw [splitBlocks, if_neg h, ih]
    simp

theorem findTrace_spec (pre : List Char) (traces : List (List Char)) :
    (∃ before after, traces = before ++ findTrace pre traces :: after ∧
        pre <+: findTrace pre traces ∧ ∀ t ∈ before, ¬ pre <+: t) ∨
    (findTrace pre traces = [] ∧ ∀ t ∈ traces, ¬ pre <+: t) := by
  induction traces with
  | nil => exact Or.inr ⟨rfl, by simp⟩
  | cons t traces ih =>
    by_cases hp : pre.isPrefixOf t = true
    · left
      refine ⟨[], traces, ?_, ?_, by simp⟩
      · simp [findTrace, hp]
      · simp only [findTrace, hp, if_true]
        exact List.isPrefixOf_iff_prefix.1 hp
    · have hnp : ¬ pre <+: t := fun h => hp (List.isPrefixOf_iff_prefix.2 h)
      simp only [findTrace, hp]
      rcases ih with ⟨before, after, h1, h2, h3⟩ | ⟨h1, h2⟩
      · left
        refine ⟨t :: before, after, ?_, h2, ?_⟩
        · simp only [List.cons_append, List.cons.injEq, true_and]
          exact h1
        · intro x hx
          rcases List.mem_cons.1 hx with rfl | hx
          · exact hnp
          · exact h3 x hx
      · right
        refine ⟨h1, ?_⟩
        intro x hx
        rcases List.mem_cons.1 hx with rfl | hx
        · exact hnp
        · exact h2 x hx

/-- C9, the claim as stated fails when no block of the dump starts with the prefix. The
dump of a caller and a worker, in the format of `runtime.Stack`, has no block that
starts with "server id 1 "; `handleTimeout` then returns the error with the empty trace
text: neither non-empty nor the caller's stack. -/
theorem handleTimeout_trace_can_be_empty :
    (handleTimeout shutdownTest
        "goroutine 1 [select]:\nmain.main()\n\ngoroutine 6 [sleep]:\nmain.worker()\n").1
      = .callTimeout ⟨"counter", "1", ""⟩ := by
  simp only [handleTimeout, readStack_eq]
  decide

/-- C9, amended. For every stack dump, `handleTimeout` returns a `CallTimeoutError` with
the actor's kind and id and a trace text which is the first of the blocks of the dump
(the pieces between blank lines, which joined by blank lines give the dump back) that
starts with "server id <id> ", and is then not empty, or the empty text when no block
starts so; a configured deadlock callback is invoked once, with the id and that same
trace text. The caller's own stack is taken only when the error with an empty trace is
rendered by `Error`. -/
theorem handleTimeout_trace [ToString ID] (sys : Sys ID State Store W) (dump : String) :
    ∃ trace : String,
      (handleTimeout sys dump).1
        = .callTimeout ⟨sys.server.kind, sys.server.id, trace⟩ ∧
      (handleTimeout sys dump).2
        = (match sys.server.config.deadlockCallback with
           | some cb => { sys with world := cb sys.server.id trace sys.world }
           | none => sys) ∧
      List.intercalate ['\n', '\n'] (splitBlocks dump.data []) = dump.data ∧
      ((∃ before after, splitBlocks dump.data [] = before ++ trace.data :: after ∧
          ("server id " ++ toString sys.server.id ++ " ").data <+: trace.data ∧
          (∀ t ∈ before, ¬ ("server id " ++ toString sys.server.id ++ " ").data <+: t) ∧
          trace ≠ "") ∨
        (trace = "" ∧
          ∀ t ∈ splitBlocks dump.data [],
            ¬ ("server id " ++ toString sys.server.id ++ " ").data <+: t)) ∧
      ∀ clientStack : String, trace = "" →
        CallTimeoutError.Error ⟨sys.server.kind, sys.server.id, trace⟩ clientStack
          = "GenServer WARNING timeout in " ++ sys.server.kind ++ ", id "
            ++ toString sys.server.id
            ++ "\nGenServer couldn't find Server stacktrace\nClient Stacktrace:\n"
            ++ clientStack ++ "\n" := by
  refine ⟨⟨findTrace ("server id " ++ toString sys.server.id ++ " ").data
    (splitBlocks dump.data [])⟩, ?_, ?_, ?_, ?_, ?_⟩
  · simp only [handleTimeout, readStack_eq]
  · simp only [handleTimeout, readStack_eq]
  · simpa using splitBlocks_join dump.data []
  · rcases findTrace_spec ("server id " ++ toString sys.server.id ++ " ").data
      (splitBlocks dump.data []) with ⟨before, after, h1, h2, h3⟩ | ⟨h1, h2⟩
    · left
      refine ⟨before, after, h1, h2, h3, ?_⟩
      intro he
      have hd := congrArg String.data he
      simp only at hd
      rw [hd] at h2
      have := List.IsPrefix.length_le h2
      simp at this
    · right
      refine ⟨?_, h2⟩
      rw [h1]
  · intro clientStack he
    rw [he]
    simp [CallTimeoutError.Error]

end genserver

namespace genserver

open mailbox

variable {ID State Store W : Type}

theorem handle_err (d : Nat) (hd : Handler State W) (sys : Sys ID State State W) (e : String)
    (mb3 : Mailbox (MessageHandler State W))
    (hm : sys.server.stateMutator = simpleAccessor.ModifyState)
    (herr : (hd.Handle sys.store sys.world).1.2 = some e)
    (hclose : Close d sys.server.messages = some mb3) :
    handle d hd sys = deliver (hd.Handle sys.store sys.world).1.1
      (setMessages { sys with
        store := (hd.Handle sys.store sys.world).2.1,
        world := (hd.Handle sys.store sys.world).2.2,
        log := sys.log ++ ["Processing message: " ++ e] } mb3) := by
  unfold handle
  simp only [hm, simpleAccessor.ModifyState]
  rcases hH : hd.Handle sys.store sys.world with ⟨⟨rv, err⟩, s1, w1⟩
  rw [hH] at herr
  simp only at herr
  subst herr
  simp only [hclose]

theorem loop_closed (d n : Nat) (sys : Sys ID State Store W) (hw : sys.worker = .Running)
    (hh : sys.server.messages.head = none) (ho : sys.server.messages.isOpen = false) :
    loop d (n + 1) sys = finish sys .Terminated := by
  rw [loop, loopIter_closed d sys hw hh ho, loop_stopped]
  simp [finish]

theorem loopIter_err (d : Nat) (sys : Sys ID State State W) (a : Nat) (hd : Handler State W)
    (e : String) (addrs : List Nat)
    (hw : sys.worker = .Running)
    (hm : sys.server.stateMutator = simpleAccessor.ModifyState)
    (ho : sys.server.messages.isOpen = true)
    (hh : sys.server.messages.head = some a)
    (hmsg : (load sys.server.messages.heap a).message = some hd)
    (hns : isShutdown (some hd) = false)
    (herr : (hd.Handle sys.store sys.world).1.2 = some e)
    (hc : isChain sys.server.messages.heap (load sys.server.messages.heap a).next addrs = true)
    (hlen : addrs.length < d) :
    loopIter d sys = deliver (hd.Handle sys.store sys.world).1.1
      { sys with
        store := (hd.Handle sys.store sys.world).2.1,
        world := (hd.Handle sys.store sys.world).2.2,
        log := sys.log ++ ["Processing message: " ++ e],
        server := { sys.server with messages := { sys.server.messages with
          isOpen := false, head := none,
          messagePool := addrs.reverse ++ a :: sys.server.messages.messagePool } } } := by
  rw [loopIter_receive d sys a hw hh, hmsg, process_handler d hd _ hns]
  refine (handle_err d hd _ e { sys.server.messages with
      isOpen := false, head := none,
      messagePool := addrs.reverse ++ a :: sys.server.messages.messagePool } ?_ ?_ ?_).trans ?_
  · exact hm
  · exact herr
  · simp only [setMessages, Close, ho, if_true]
    rw [drain_chain addrs _ d hc hlen]
    rfl
  · rfl

/-- A call with nothing queued behind it and no stale link in the pool. An actor waits
on an empty open mailbox whose nodes all have a nil `next`, with the state mutator that
applies the function directly, and a `Call` is issued whose handler returns `(r, err)`
with a
non-nil error. The pass of the loop that handles it logs the error, closes the mailbox
and only then runs the result delivery, in a state `sysC` whose mailbox is closed and
whose channel is still empty; the `Call` returns `r` with a nil error, whatever the pool
hands out and however many passes the worker gets; the error is in the log of the worker
and nowhere in what the caller gets. -/
theorem Call_receives_result_after_error {Message Ret : Type} [Inhabited Ret] [ToString ID]
    (sys : Sys ID State State W) (s : State) (message : Message)
    (handler : CallHandler State Message Ret) (choice : Option Nat) (d n : Nat) (dump : String)
    (e : String) (hidle : Idle sys s) (herr : (handler s message).2.2 = some e) :
    ∃ mb1 sysC sys1,
      Send sys.server.messages (some (.call ⟨message, some sys.chans.length, handler⟩)) choice
        = some (true, mb1) ∧
      loopIter (d + 1) (setMessages { sys with chans := sys.chans ++ [none] } mb1)
        = deliver (some (MessageReturner.Return ⟨(handler s message).2.1, some sys.chans.length⟩))
            sysC ∧
      sysC.server.messages.isOpen = false ∧
      sysC.log = sys.log ++ ["Processing message: " ++ e] ∧
      sysC.chans = sys.chans ++ [none] ∧
      Call sys message handler choice (loop (d + 1) (n + 1)) dump
        = .ret ((⟨Ret, (handler s message).2.1⟩, none), sys1) ∧
      sys1.log = sys.log ++ ["Processing message: " ++ e] ∧
      sys1.store = (handler s message).1 ∧
      sys1.server.messages.isOpen = false := by
  obtain ⟨hw, hm, hs, hh, ho, hf, hn⟩ := hidle
  subst hs
  obtain ⟨mb1, a, hS, hhead, hopen1, hload, hnext1, hfree1⟩ :=
    Send_empty sys.server.messages
      (some (.call ⟨message, some sys.chans.length, handler⟩)) choice rfl ho hh hf hn
  have hpass : loopIter (d + 1) (setMessages { sys with chans := sys.chans ++ [none] } mb1)
      = deliver (some (MessageReturner.Return
          ⟨(handler sys.store message).2.1, some sys.chans.length⟩))
        { sys with
          store := (handler sys.store message).1,
          chans := sys.chans ++ [none],
          log := sys.log ++ ["Processing message: " ++ e],
          server := { sys.server with messages := { mb1 with
            isOpen := false, head := none, messagePool := a :: mb1.messagePool } } } :=
    loopIter_err (d + 1) (setMessages { sys with chans := sys.chans ++ [none] } mb1) a
      (.call ⟨message, some sys.chans.length, handler⟩) e [] hw hm hopen1 hhead
      (by rw [setMessages]; simp only [hload]) rfl herr
      (by simp only [setMessages, hload]; rfl) (by simp)
  obtain ⟨sysD, hD⟩ : ∃ x : Sys ID State State W, x = { sys with
      store := (handler sys.store message).1,
      chans := sys.chans ++ [some ⟨Ret, (handler sys.store message).2.1⟩],
      log := sys.log ++ ["Processing message: " ++ e],
      server := { sys.server with messages := { mb1 with
        isOpen := false, head := none, messagePool := a :: mb1.messagePool } } } := ⟨_, rfl⟩
  have hDw : sysD.worker = .Running := by rw [hD]; exact hw
  have hDh : sysD.server.messages.head = none := by rw [hD]
  have hDo : sysD.server.messages.isOpen = false := by rw [hD]
  have hloop : (loop (d + 1) n sysD).chans = sysD.chans ∧ (loop (d + 1) n sysD).log = sysD.log ∧
      (loop (d + 1) n sysD).store = sysD.store ∧
      (loop (d + 1) n sysD).server.messages = sysD.server.messages := by
    cases n with
    | zero => exact ⟨rfl, rfl, rfl, rfl⟩
    | succ n =>
      rw [loop_closed (d + 1) n sysD hDw hDh hDo]
      exact ⟨rfl, rfl, rfl, rfl⟩
  have hcall : Call sys message handler choice (loop (d + 1) (n + 1)) dump
      = .ret ((⟨Ret, (handler sys.store message).2.1⟩, none),
          { (loop (d + 1) n sysD) with chans := sys.chans ++ [none] }) := by
    unfold Call
    simp only [makeChan, hS]
    rw [loop, hpass]
    simp only [deliver, MessageReturner.Return, chanSend_new]
    rw [← hD]
    have hc : (loop (d + 1) n sysD).chans
        = sys.chans ++ [some ⟨Ret, (handler sys.store message).2.1⟩] := by
      rw [hloop.1, hD]
    simp only [hc, chanRecv_new]
  refine ⟨mb1, _, _, hS, hpass, rfl, rfl, rfl, hcall, ?_, ?_, ?_⟩
  · show (loop (d + 1) n sysD).log = _
    rw [hloop.2.1, hD]
  · show (loop (d + 1) n sysD).store = _
    rw [hloop.2.2.1, hD]
  · show (loop (d + 1) n sysD).server.messages.isOpen = false
    rw [hloop.2.2.2, hD]

theorem Call_receives_result_after_error_witness :
    ∃ sys1 : Sys String Nat Nat Unit,
      Call (Spawn "counter" "1" simpleAccessor.ModifyState none 0 ()) 1 addThenFail none
          (loop 1 2) ""
        = .ret ((⟨Nat, 1⟩, none), sys1) ∧
      sys1.log = ["Processing message: add failed"] ∧
      sys1.server.messages.isOpen = false := by
  obtain ⟨_, _, sys1, _, _, _, _, _, h1, h2, _, h3⟩ :=
    Call_receives_result_after_error (Spawn "counter" "1" simpleAccessor.ModifyState none 0 ())
      0 1 addThenFail none 0 1 "" "add failed" (Spawn_idle "counter" "1" 0 ()) rfl
  exact ⟨sys1, h1, by simpa [Spawn, Start] using h2, h3⟩

theorem chansReady_left (ms : List (Handler State W)) (f : Handler State W) (chans : Chans)
    (h : chansReady (ms ++ [f]) chans) : chansReady ms chans := by
  obtain ⟨hnd, hemp⟩ := h
  rw [List.filterMap_append] at hnd hemp
  exact ⟨hnd.of_append_left, fun c hc => hemp c (List.mem_append_left _ hc)⟩

theorem chansReady_last (f : Handler State W) (ms : List (Handler State W)) :
    ∀ (s : State) (chans : Chans), chansReady (ms ++ [f]) chans →
    ∀ c, resultChan f = some c → (delivered ms s chans).get? c = some none := by
  induction ms with
  | nil =>
    intro s chans h c hc
    exact h.2 c (by simp [hc])
  | cons hd ms ih =>
    intro s chans h c hc
    exact ih _ _ (chansReady_tail hd (ms ++ [f]) s chans h) c hc

theorem loop_to_error (d : Nat) (sys : Sys ID State State W) (addrs : List Nat)
    (ms : List (Handler State W)) (f : Handler State W) (e : String)
    (ns : List (MessageHandler State W))
    (hw : sys.worker = .Running) (hm : sys.server.stateMutator = simpleAccessor.ModifyState)
    (ho : sys.server.messages.isOpen = true)
    (hc : isChain sys.server.messages.heap sys.server.messages.head addrs = true)
    (hmap : addrs.map (fun a => (load sys.server.messages.heap a).message)
      = ms.map some ++ some f :: ns)
    (hns : ∀ hd ∈ ms, isShutdown (some hd) = false)
    (herr : noErrors sys.world ms sys.store)
    (hf : (f.Handle (applyAll ms sys.store) sys.world).1.2 = some e)
    (hch : chansReady (ms ++ [f]) sys.chans) (hd : addrs.length ≤ d) :
    loop d (ms.length + 1) sys = { sys with
      store := (f.Handle (applyAll ms sys.store) sys.world).2.1,
      world := (f.Handle (applyAll ms sys.store) sys.world).2.2,
      chans := deliverOne f (applyAll ms sys.store)
        (delivered ms sys.store sys.chans),
      log := sys.log ++ ["Processing message: " ++ e],
      server := { sys.server with messages := { sys.server.messages with
        isOpen := false, head := none,
        messagePool := addrs.reverse ++ sys.server.messages.messagePool } } } := by
  have hchl := chansReady_left ms f sys.chans hch
  cases hfs : isShutdown (some f) with
  | true =>
    cases f with
    | call m => simp [isShutdown] at hfs
    | cast m => simp [isShutdown] at hfs
    | shutdown sd =>
      rw [(loop_after_shutdown d sys addrs ms sd ns hw hm ho hc hmap hns herr hchl hd).1]
      simp only [Handler.Handle, ShutdownMessageHandler.Handle] at hf
      simp only [Handler.Handle, ShutdownMessageHandler.Handle, deliverOne, hf,
        Option.toList, List.map_cons, List.map_nil]
  | false =>
    have hpre := loop_handlers d ms sys addrs _ hw hm hc hmap hns herr hchl
    have hdrop : (addrs.drop ms.length).map (fun a => (load sys.server.messages.heap a).message)
        = some f :: ns := by
      rw [List.map_drop, hmap]
      simp
    have hcd := isChain_drop sys.server.messages.heap ms.length _ addrs hc
    have hsplit := List.take_append_drop ms.length addrs
    cases hdr : addrs.drop ms.length with
    | nil => rw [hdr] at hdrop; simp at hdrop
    | cons a rest =>
      rw [hdr] at hdrop hcd hsplit
      simp only [List.map_cons, List.cons.injEq] at hdrop
      have hlen : rest.length < d := by
        have := congrArg List.length hsplit
        simp at this
        omega
      rw [loop_add, hpre, loop, loop]
      refine (loopIter_err d _ a f e rest ?_ ?_ ?_ ?_ ?_ hfs ?_ ?_ hlen).trans ?_
      · exact hw
      · exact hm
      · exact ho
      · show (List.drop ms.length addrs).head? = some a
        rw [hdr]; rfl
      · exact hdrop.1
      · exact hf
      · exact (isChain_cons _ _ _ _ hcd).2
      refine (deliver_ok f _ _ _ hfs ?_).trans ?_
      · exact chansReady_last f ms sys.store sys.chans hch
      · have hpool : rest.reverse ++ a :: ((addrs.take ms.length).reverse ++
            sys.server.messages.messagePool)
            = addrs.reverse ++ sys.server.messages.messagePool := by
          conv_rhs => rw [← hsplit]
          simp
        simp only [hpool]

/-- A queue without stale links: the `next` links from `head` run through exactly the
nodes of the queue and end in nil. The mailbox of a running actor (open, with the state
mutator that applies the function directly) holds `ms`, `f`, `ns`, where the handlers
`ms` are no Shutdowns and
return no error, `f` returns the error `e` on the state they leave, and the calls among
`ms` and `f` have empty result channels of their own. Then the mailbox is still open
after the passes for `ms` and closed and empty after the pass for `f`, which logs the
error; from that pass on the state is exactly what `f` left (none of `ns` is applied,
and nothing else is delivered), every `Send` returns false and changes nothing, the next
`Receive` reports no more messages, and the worker is terminated after one more pass. -/
theorem handler_error_is_final (d : Nat) (sys : Sys ID State State W) (addrs : List Nat)
    (ms : List (Handler State W)) (f : Handler State W) (e : String)
    (ns : List (MessageHandler State W))
    (hw : sys.worker = .Running) (hm : sys.server.stateMutator = simpleAccessor.ModifyState)
    (ho : sys.server.messages.isOpen = true)
    (hc : isChain sys.server.messages.heap sys.server.messages.head addrs = true)
    (hmap : addrs.map (fun a => (load sys.server.messages.heap a).message)
      = ms.map some ++ some f :: ns)
    (hns : ∀ hd ∈ ms, isShutdown (some hd) = false)
    (herr : noErrors sys.world ms sys.store)
    (hf : (f.Handle (applyAll ms sys.store) sys.world).1.2 = some e)
    (hch : chansReady (ms ++ [f]) sys.chans) (hd : addrs.length ≤ d) :
    (loop d ms.length sys).server.messages.isOpen = true ∧
    (loop d ms.length sys).store = applyAll ms sys.store ∧
    (loop d (ms.length + 1) sys).server.messages.isOpen = false ∧
    (loop d (ms.length + 1) sys).server.messages.head = none ∧
    (loop d (ms.length + 1) sys).log = sys.log ++ ["Processing message: " ++ e] ∧
    (∀ n, (loop d (ms.length + 1 + n) sys).store
          = (f.Handle (applyAll ms sys.store) sys.world).2.1 ∧
      (loop d (ms.length + 1 + n) sys).world
          = (f.Handle (applyAll ms sys.store) sys.world).2.2 ∧
      (loop d (ms.length + 1 + n) sys).chans
          = deliverOne f (applyAll ms sys.store)
              (delivered ms sys.store sys.chans) ∧
      ∀ message choice, Send (loop d (ms.length + 1 + n) sys).server.messages message choice
        = some (false, (loop d (ms.length + 1 + n) sys).server.messages)) ∧
    Receive (loop d (ms.length + 1) sys).server.messages
      = some ((false, none), (loop d (ms.length + 1) sys).server.messages) ∧
    (loop d (ms.length + 2) sys).worker = .Terminated ∧
    (loop d (ms.length + 2) sys).server.terminated = true := by
  have hpre := loop_handlers d ms sys addrs _ hw hm hc hmap hns herr
    (chansReady_left ms f sys.chans hch)
  have h1 := loop_to_error d sys addrs ms f e ns hw hm ho hc hmap hns herr hf hch hd
  have h2 : ∀ n, loop d (ms.length + 1 + (n + 1)) sys
      = finish (loop d (ms.length + 1) sys) .Terminated := by
    intro n
    rw [loop_add]
    generalize loop d (ms.length + 1) sys = sys1 at h1 ⊢
    refine loop_closed d n sys1 ?_ ?_ ?_
    · rw [h1]; exact hw
    · rw [h1]
    · rw [h1]
  refine ⟨by rw [hpre]; exact ho, by rw [hpre], by rw [h1], by rw [h1], by rw [h1],
    fun n => ?_, ?_, ?_, ?_⟩
  · cases n with
    | zero =>
      rw [Nat.add_zero, h1]
      exact ⟨rfl, rfl, rfl, fun message choice => Send_of_closed _ _ _ rfl⟩
    | succ n =>
      rw [h2 n, h1]
      exact ⟨rfl, rfl, rfl, fun message choice => Send_of_closed _ _ _ rfl⟩
  · rw [h1]
    rfl
  · rw [show ms.length + 2 = ms.length + 1 + (0 + 1) from rfl, h2 0]
    rfl
  · rw [show ms.length + 2 = ms.length + 1 + (0 + 1) from rfl, h2 0]
    rfl

theorem handler_error_is_final_witness :
    (∀ n, (loop 3 (2 + n) failFastTest).store = 8 ∧
      ∀ message choice, Send (loop 3 (2 + n) failFastTest).server.messages message choice
        = some (false, (loop 3 (2 + n) failFastTest).server.messages)) ∧
    (loop 3 2 failFastTest).log = ["Processing message: increment failed"] ∧
    (loop 3 3 failFastTest).worker = .Terminated := by
  have h := handler_error_is_final 3 failFastTest [0, 1, 2] [.cast ⟨1, increment⟩]
    (.cast ⟨2, incrementThenFail⟩) "increment failed" [some (.cast ⟨10, increment⟩)]
    rfl rfl rfl rfl rfl
    (by intro hd h; simp at h; subst h; rfl)
    ⟨rfl, trivial⟩ rfl
    ⟨by decide, by intro c h; simp [resultChan] at h⟩
    (by decide)
  exact ⟨fun n => ⟨(h.2.2.2.2.2.1 n).1, (h.2.2.2.2.2.1 n).2.2.2⟩,
    by simpa [failFastTest] using h.2.2.2.2.1, h.2.2.2.2.2.2.2.1⟩

end genserver

namespace mailbox

variable {M : Type u} [Comparable M]

theorem drain_two_cycle (heap : List (Message M)) (a b : Nat)
    (hab : (load heap a).next = some b) (hba : (load heap b).next = some a)
    (t : Option Nat) (o : Bool) (fuel : Nat) : ∀ free : List Nat,
    drain fuel (⟨heap, some a, t, free, o⟩ : Mailbox M) = none ∧
    drain fuel (⟨heap, some b, t, free, o⟩ : Mailbox M) = none := by
  induction fuel with
  | zero => intro free; exact ⟨rfl, rfl⟩
  | succ n ih =>
    intro free
    constructor
    · have := (ih (Put free a)).2
      simpa [drain, hab] using this
    · have := (ih (Put free b)).1
      simpa [drain, hba] using this

end mailbox

namespace genserver

open mailbox

variable {ID State Store W : Type}

theorem process_shutdown_spins (d : Nat) (sd : ShutdownMessageHandler State W)
    (sys : Sys ID State Store W) (a b : Nat)
    (ho : sys.server.messages.isOpen = true)
    (hh : sys.server.messages.head = some a)
    (hab : (load sys.server.messages.heap a).next = some b)
    (hba : (load sys.server.messages.heap b).next = some a) :
    process d (some (.shutdown sd)) sys = { sys with worker := .Spinning } := by
  unfold process
  have hc : Close d sys.server.messages = none := by
    unfold Close
    rw [if_pos ho]
    have := (drain_two_cycle sys.server.messages.heap a b hab hba sys.server.messages.tail
      false d sys.server.messages.messagePool).1
    rw [← hh] at this
    exact this
  simp only [isShutdown, if_true, hc]

theorem Shutdown_blocks (sys : Sys ID State Store W) (reason : ShutdownReason)
    (handler : ShutdownHandler State W) (choice : Option Nat)
    (env : Sys ID State Store W → Sys ID State Store W)
    (mb : Mailbox (MessageHandler State W))
    (hS : Send sys.server.messages (some (.shutdown ⟨reason, handler⟩)) choice = some (true, mb))
    (ht : (env (setMessages sys mb)).server.terminated = false) :
    (Shutdown sys reason handler false choice env :
      Outcome (Option (GoError ID) × Sys ID State Store W)) = .blocks := by
  unfold Shutdown
  simp [hS, ht]

theorem recycledShutdown_spins (d n : Nat) :
    loop d (n + 3) recycledShutdown
      = { loopIter 0 (loopIter 0 recycledShutdown) with
          worker := .Spinning,
          server := { recycledShutdown.server with messages :=
            { recycledShutdown.server.messages with head := some 2, messagePool := [1, 2, 0] } } } := by
  have h2 : loopIter d (loopIter d recycledShutdown)
      = loopIter 0 (loopIter 0 recycledShutdown) := rfl
  have h3 := (loopIter_receive d (loopIter 0 (loopIter 0 recycledShutdown)) 1 rfl rfl).trans
    (process_shutdown_spins d ⟨.Normal, finalValue⟩ _ 2 1 rfl rfl rfl rfl)
  rw [show n + 3 = 3 + n by omega, loop_add, loop, loop, loop, loop, h2, h3, loop_stopped]
  · rfl
  · simp

/-- C3, at the failing inputs. An actor is spawned over 0 (the finalizer's variable
holds 7) and three casts, of 1, 10 and 100, are sent and handled, which leaves their
nodes in the pool with their `next` links. First, a cast of 1000 is sent on the node put
first, whose link the `Send` does not clear: the loop applies it and then the casts of
10 and 100 a second time, so a Shutdown sent afterwards runs its finalizer on 1221 and
not on 1111, the state the four casts sent give. Second, casts of 1000 and 10000 and a
Shutdown are sent and the pool hands the nodes back as `sync.Pool` does, first the one
put first, then the last, then the middle one. The Shutdown's node still points at the node of the
second cast, which now precedes it: the queue is a cycle. The loop applies the two
casts (the state is 11111) and dequeues the Shutdown, and the `Close` before its handler
never returns, whatever the number of passes: the finalizer is never invoked (its
variable stays 7), the worker never terminates and `Shutdown` waits for ever. -/
theorem Shutdown_on_recycled_nodes_never_finalizes :
    ∃ s3 s4 s5 s6 : Sys String Nat Nat Nat,
      castAll (Spawn "counter" "1" simpleAccessor.ModifyState none 0 7)
          [(1, increment, none), (10, increment, none), (100, increment, none)]
        = .ret ([none, none, none], s3) ∧
      loop 1 3 s3 = threeHandled ∧
      castAll threeHandled [(1000, increment, some 2)] = .ret ([none], s4) ∧
      (loop 1 3 s4).store = 1221 ∧
      (Shutdown (loop 1 3 s4) .Normal finalValue false none (loop 1 2) :
        Outcome (Option (GoError String) × Sys String Nat Nat Nat)) = .ret (none, s5) ∧
      s5.world = 1221 ∧
      castAll threeHandled [(1000, increment, some 2), (10000, increment, some 0)]
        = .ret ([none, none], s6) ∧
      ∀ d n, ∃ mb,
        Send s6.server.messages (some (.shutdown ⟨.Normal, finalValue⟩)) (some 0)
          = some (true, mb) ∧
        setMessages s6 mb = recycledShutdown ∧
        (loop d (n + 3) (setMessages s6 mb)).worker = .Spinning ∧
        (loop d (n + 3) (setMessages s6 mb)).store = 11111 ∧
        (loop d (n + 3) (setMessages s6 mb)).world = 7 ∧
        (loop d (n + 3) (setMessages s6 mb)).server.terminated = false ∧
        (Shutdown s6 .Normal finalValue false (some 0) (loop d (n + 3)) :
          Outcome (Option (GoError String) × Sys String Nat Nat Nat)) = .blocks := by
  refine ⟨_, _, _, _, rfl, rfl, rfl, rfl, rfl, rfl, rfl, fun d n => ⟨_, rfl, rfl, ?_⟩⟩
  have h := recycledShutdown_spins d n
  have ht : (loop d (n + 3) recycledShutdown).server.terminated = false :=
    (congrArg (fun x => x.server.terminated) h).trans rfl
  exact ⟨(congrArg Sys.worker h).trans rfl, (congrArg Sys.store h).trans rfl,
    (congrArg Sys.world h).trans rfl, ht, Shutdown_blocks _ _ _ _ _ _ rfl ht⟩

theorem handle_spins (d : Nat) (hd : Handler State W) (sys : Sys ID State State W)
    (e : String) (a b : Nat)
    (hm : sys.server.stateMutator = simpleAccessor.ModifyState)
    (herr : (hd.Handle sys.store sys.world).1.2 = some e)
    (ho : sys.server.messages.isOpen = true)
    (hh : sys.server.messages.head = some a)
    (hab : (load sys.server.messages.heap a).next = some b)
    (hba : (load sys.server.messages.heap b).next = some a) :
    handle d hd sys = { sys with
      store := (hd.Handle sys.store sys.world).2.1,
      world := (hd.Handle sys.store sys.world).2.2,
      log := sys.log ++ ["Processing message: " ++ e],
      worker := .Spinning } := by
  have hc : Close d sys.server.messages = none := by
    unfold Close
    rw [if_pos ho]
    have := (drain_two_cycle sys.server.messages.heap a b hab hba sys.server.messages.tail
      false d sys.server.messages.messagePool).1
    rw [← hh] at this
    exact this
  unfold handle
  simp only [hm, simpleAccessor.ModifyState]
  rcases hH : hd.Handle sys.store sys.world with ⟨⟨rv, err⟩, s1, w1⟩
  rw [hH] at herr
  simp only at herr
  subst herr
  simp only [hc]

theorem recycledFailure_spins (d n : Nat) :
    loop d (n + 2) recycledFailure
      = { recycledFailure with
          worker := .Spinning, store := 1113,
          log := ["Processing message: increment failed"],
          server := { recycledFailure.server with messages :=
            { recycledFailure.server.messages with head := some 1, messagePool := [2, 0] } } } := by
  have h1 : loopIter d recycledFailure = loopIter 0 recycledFailure := rfl
  have h2 := (loopIter_receive d (loopIter 0 recycledFailure) 2 rfl rfl).trans
    ((process_handler d (.cast ⟨2, incrementThenFail⟩) _ rfl).trans
      (handle_spins d (.cast ⟨2, incrementThenFail⟩) _ "increment failed" 1 2
        rfl rfl rfl rfl rfl rfl))
  rw [show n + 2 = 2 + n by omega, loop_add, loop, loop, loop, h1, h2, loop_stopped]
  · rfl
  · simp

theorem recycledCall_spins (d n : Nat) :
    loop d (n + 1) recycledCall
      = { recycledCall with
          worker := .Spinning, store := 112,
          log := ["Processing message: add failed"],
          server := { recycledCall.server with messages :=
            { recycledCall.server.messages with head := some 2, messagePool := [0] } } } := by
  have h1 := (loopIter_receive d recycledCall 0 rfl rfl).trans
    ((process_handler d (.call ⟨1, some 0, addThenFail⟩) _ rfl).trans
      (handle_spins d (.call ⟨1, some 0, addThenFail⟩) _ "add failed" 2 1
        rfl rfl rfl rfl rfl rfl))
  rw [show n + 1 = 1 + n by omega, loop_add, loop, loop, h1, loop_stopped]
  · rfl
  · simp

/-- C11, at the failing inputs. First, the stale links: an actor is spawned over 0, three
casts are sent and handled, and then a cast of 1000, a failing cast of 2 and a cast of
10000 are sent, the pool handing the nodes back as `sync.Pool` does. The node of the
last cast still points at the node of the failing one: the queue is a cycle. The loop
applies the first cast and the failing one (the state is 1113) and logs the error, and
the `Close` after it never returns, whatever the number of passes: the loop does not get
to its next `Receive` and the worker never terminates. Second, the state mutator of the
memory store for an id the store holds nothing under returns an error for the queued
cast: the loop logs it, closes the mailbox and panics on the nil function instead of
terminating on its next `Receive`. -/
theorem failing_handler_never_terminates :
    (∃ s3 s6 : Sys String Nat Nat Nat,
      castAll (Spawn "counter" "1" simpleAccessor.ModifyState none 0 7)
          [(1, increment, none), (10, increment, none), (100, increment, none)]
        = .ret ([none, none, none], s3) ∧
      loop 1 3 s3 = threeHandled ∧
      castAll threeHandled
          [(1000, increment, some 2), (2, incrementThenFail, some 0),
           (10000, increment, some 0)]
        = .ret ([none, none, none], s6) ∧
      s6 = recycledFailure ∧
      ∀ d n, (loop d (n + 2) s6).worker = .Spinning ∧
        (loop d (n + 2) s6).server.terminated = false ∧
        (loop d (n + 2) s6).store = 1113 ∧
        (loop d (n + 2) s6).log = ["Processing message: increment failed"]) ∧
    ∀ n, (loop 1 (n + 1) missingIdTest).worker = .Panicked ∧
      (loop 1 (n + 1) missingIdTest).log
        = ["Processing message: Could not load state for ID 1"] ∧
      (loop 1 (n + 1) missingIdTest).server.messages.isOpen = false := by
  refine ⟨⟨_, _, rfl, rfl, rfl, rfl, fun d n => ?_⟩, fun n => ?_⟩
  · have h := recycledFailure_spins d n
    exact ⟨(congrArg Sys.worker h).trans rfl,
      (congrArg (fun x => x.server.terminated) h).trans rfl,
      (congrArg Sys.store h).trans rfl, (congrArg Sys.log h).trans rfl⟩
  · have h : loop 1 (n + 1) missingIdTest = loopIter 1 missingIdTest := by
      rw [loop, loop_stopped]
      exact (by decide : (loopIter 1 missingIdTest).worker ≠ .Running)
    rw [h]
    exact ⟨rfl, by decide, rfl⟩

theorem Call_times_out {Message Ret : Type} [Inhabited Ret] [ToString ID]
    (sys : Sys ID State Store W) (message : Message) (handler : CallHandler State Message Ret)
    (choice : Option Nat) (env : Sys ID State Store W → Sys ID State Store W) (dump : String)
    (mb : Mailbox (MessageHandler State W)) (sys1 : Sys ID State Store W)
    (hS : Send sys.server.messages (some (.call ⟨message, some sys.chans.length, handler⟩))
      choice = some (true, mb))
    (he : env (setMessages { sys with chans := sys.chans ++ [none] } mb) = sys1)
    (hc : sys1.chans.get? sys.chans.length = some none)
    (hcb : sys1.server.config.deadlockCallback = none) :
    ∃ trace, Call sys message handler choice env dump
      = .ret ((⟨Ret, default⟩,
          some (.callTimeout ⟨sys1.server.kind, sys1.server.id, trace⟩)), sys1) := by
  refine ⟨⟨findTrace ("server id " ++ toString sys1.server.id ++ " ").data
    (splitBlocks dump.data [])⟩, ?_⟩
  unfold Call
  simp only [makeChan, hS, he, chanRecv, hc, handleTimeout, readStack_eq, hcb]

/-- C12, at the failing input. An actor is spawned over 0 and three casts are sent and
handled. Then a `Call` is issued whose handler adds 1 and returns an error, and while
its caller waits two casts are sent behind it, the pool handing the nodes back as
`sync.Pool` does. The node of the last cast still points at the node before it: the
queue behind the call is a cycle. The loop applies the handler and logs the error, and
the `Close` after it never returns, so the result delivery never runs: the channel stays
empty, the worker spins, and the `Call` returns the zero value with a
`CallTimeoutError` instead of the result with a nil error. -/
theorem Call_on_recycled_nodes_times_out :
    ∃ s3 : Sys String Nat Nat Nat,
      castAll (Spawn "counter" "1" simpleAccessor.ModifyState none 0 7)
          [(1, increment, none), (10, increment, none), (100, increment, none)]
        = .ret ([none, none, none], s3) ∧
      loop 1 3 s3 = threeHandled ∧
      ∀ (d n : Nat) (dump : String), ∃ trace sys1,
        Call threeHandled 1 addThenFail (some 2)
            (castsThenLoop d (n + 1) [(10, increment, some 0), (100, increment, some 0)]) dump
          = .ret ((⟨Nat, 0⟩, some (.callTimeout ⟨"counter", "1", trace⟩)), sys1) ∧
        sys1.worker = .Spinning ∧ sys1.chans = [none] ∧ sys1.store = 112 ∧
        sys1.log = ["Processing message: add failed"] := by
  refine ⟨_, rfl, rfl, fun d n dump => ?_⟩
  have h := recycledCall_spins d n
  obtain ⟨trace, ht⟩ := Call_times_out threeHandled 1 addThenFail (some 2)
    (castsThenLoop d (n + 1) [(10, increment, some 0), (100, increment, some 0)]) dump
    _ _ rfl h rfl rfl
  exact ⟨trace, _, ht, rfl, rfl, rfl, rfl⟩

end genserver
